import Mathlib

/-! # Guardrails orchestrator configuration synthesis

A shallow embedding of `GenerateOrchestratorConfigMap`
(`controllers/gorch/config_generation.go`) and of the Go library calls it
relies on (`strings.Split`, `strconv.Quote` as used by the `%q` verb,
`strconv.Itoa`), and of `GetOrCreateCounter`
(`controllers/metrics/metrics.go`), followed by theorems about the
generated `config.yaml` and about the counter registry.

Go strings are modelled by `String` (valid UTF-8 text).  A Go call that
returns `(value, error)` and may also panic is modelled by `Outcome`.
-/

set_option linter.dupNamespace false
set_option maxRecDepth 8192

namespace Gorch

/-- Result of a Go call: a value with a nil error, a non-nil error (its
message), or a run-time panic (its message). -/
inductive Outcome (α : Type) where
  | ok (val : α)
  | error (msg : String)
  | panic (msg : String)
  deriving DecidableEq, Repr

namespace Outcome

/-- Sequencing: an error or a panic of the first step aborts the rest. -/
def bind {α β : Type} (x : Outcome α) (f : α → Outcome β) : Outcome β :=
  match x with
  | ok a => f a
  | error m => error m
  | panic m => panic m

/-- Apply a function to the returned value, keeping errors and panics. -/
def map {α β : Type} (f : α → β) (x : Outcome α) : Outcome β :=
  match x with
  | ok a => ok (f a)
  | error m => error m
  | panic m => panic m

/-- The call returned a value with a nil error. -/
def isOk {α : Type} (x : Outcome α) : Bool :=
  match x with
  | ok _ => true
  | _ => false

end Outcome

/-! ## Go library: `strings.Split` -/

/-- One left-to-right pass of `strings.Split` for a non-empty separator.
`skip` counts the characters of a separator occurrence still to be
consumed; `cur` holds the current piece, reversed. -/
def splitAux (sep : List Char) : Nat → List Char → List Char → List (List Char)
  | _, [], cur => [cur.reverse]
  | skip + 1, _ :: t, cur => splitAux sep skip t cur
  | 0, c :: t, cur =>
    if sep.isPrefixOf (c :: t) then cur.reverse :: splitAux sep (sep.length - 1) t []
    else splitAux sep 0 t (c :: cur)

/-- Go `strings.Split(s, sep)`: the pieces of `s` between the successive
non-overlapping occurrences of `sep`; with an empty `sep`, the characters
of `s`. -/
def Split (s sep : String) : List String :=
  if sep.data = [] then s.data.map (fun c => String.mk [c])
  else (splitAux sep.data 0 s.data []).map String.mk

/-! ## Go library: `strconv.Quote` (the `%q` verb) and `strconv.Itoa` -/

/-- Go `lowerhex[n]`. -/
def lowerhex (n : Nat) : Char :=
  "0123456789abcdef".data.getD n '0'

/-- Go `strconv.IsPrint`.  The Latin-1 range is decided as in the library;
above it the library consults Unicode tables, taken here as the
parameter `tbl`. -/
def IsPrint (tbl : Char → Bool) (r : Char) : Bool :=
  if r.toNat ≤ 0xFF then
    if 0x20 ≤ r.toNat ∧ r.toNat ≤ 0x7E then true
    else if 0xA1 ≤ r.toNat ∧ r.toNat ≤ 0xFF then r.toNat ≠ 0xAD
    else false
  else tbl r

/-- The hexadecimal digits of `r` from bit `4 * k - 4` down to bit 0. -/
def hexDigits (r : Nat) : Nat → List Char
  | 0 => []
  | k + 1 => lowerhex ((r >>> (4 * k)) % 16) :: hexDigits r k

/-- Go `strconv.appendEscapedRune` with `quote = '"'`, `ASCIIonly = false`,
`graphicOnly = false`. -/
def appendEscapedRune (tbl : Char → Bool) (r : Char) : List Char :=
  if r = Char.ofNat 34 ∨ r = Char.ofNat 92 then [Char.ofNat 92, r]
  else if IsPrint tbl r then [r]
  else if r.toNat = 7 then [Char.ofNat 92, 'a']
  else if r.toNat = 8 then [Char.ofNat 92, 'b']
  else if r.toNat = 12 then [Char.ofNat 92, 'f']
  else if r.toNat = 10 then [Char.ofNat 92, 'n']
  else if r.toNat = 13 then [Char.ofNat 92, 'r']
  else if r.toNat = 9 then [Char.ofNat 92, 't']
  else if r.toNat = 11 then [Char.ofNat 92, 'v']
  else if r.toNat < 0x20 ∨ r.toNat = 0x7F then Char.ofNat 92 :: 'x' :: hexDigits r.toNat 2
  else if r.toNat < 0x10000 then Char.ofNat 92 :: 'u' :: hexDigits r.toNat 4
  else Char.ofNat 92 :: 'U' :: hexDigits r.toNat 8

/-- Go `strconv.Quote(s)`, which is what `fmt` prints for `%q`. -/
def Quote (tbl : Char → Bool) (s : String) : String :=
  String.mk (Char.ofNat 34 :: ((s.data.map (appendEscapedRune tbl)).flatten ++ [Char.ofNat 34]))

/-- Go `strconv.Itoa`: the decimal rendering of an integer. -/
def Itoa (i : Int) : String :=
  toString i

/-! ## Data model (the fields of the Kubernetes objects the function reads) -/

/-- Go `kservev1beta1.ModelSpec`: `Runtime` is a `*string`. -/
structure ModelSpec where
  Runtime : Option String
  deriving DecidableEq, Repr

/-- Go `kservev1beta1.PredictorSpec`: `Model` is a `*ModelSpec`. -/
structure PredictorSpec where
  Model : Option ModelSpec
  deriving DecidableEq, Repr

/-- Go `kservev1beta1.InferenceServiceSpec`. -/
structure InferenceServiceSpec where
  Predictor : PredictorSpec
  deriving DecidableEq, Repr

/-- Go `kservev1beta1.InferenceServiceStatus`: `URL` is a `*apis.URL`; the
model keeps the text `URL.String()` returns for it. -/
structure InferenceServiceStatus where
  URL : Option String
  deriving DecidableEq, Repr

/-- Go `kservev1beta1.InferenceService`. -/
structure InferenceService where
  Name : String
  Namespace : String
  Labels : List (String × String)
  Spec : InferenceServiceSpec
  Status : InferenceServiceStatus
  deriving DecidableEq, Repr

/-- Go `corev1.ContainerPort`: `ContainerPort` is an `int32`. -/
structure ContainerPort where
  ContainerPort : Int
  deriving DecidableEq, Repr

/-- Go `corev1.Container`. -/
structure Container where
  Name : String
  Ports : List ContainerPort
  deriving DecidableEq, Repr

/-- Go `v1alpha1.ServingRuntimeSpec` (its pod spec). -/
structure ServingRuntimeSpec where
  Containers : List Container
  deriving DecidableEq, Repr

/-- Go `v1alpha1.ServingRuntime`. -/
structure ServingRuntime where
  Name : String
  Namespace : String
  Spec : ServingRuntimeSpec
  deriving DecidableEq, Repr

/-- Go `client.ListOptions`: the namespace and the optional label selector
(a set of key/value pairs that must all be present). -/
structure ListOptions where
  Namespace : String
  LabelSelector : Option (List (String × String))
  deriving DecidableEq, Repr

/-- Go `metav1.OwnerReference`. -/
structure OwnerReference where
  Kind : String
  Name : String
  Controller : Bool
  deriving DecidableEq, Repr

/-- Go `client.Object` passed as `owner`. -/
structure Object where
  Kind : String
  Name : String
  Namespace : String
  deriving DecidableEq, Repr

/-- Go `corev1.ConfigMap`: `Data` is a `map[string]string`, kept as the list
of its key/value pairs. -/
structure ConfigMap where
  Name : String
  Namespace : String
  OwnerReferences : List OwnerReference
  Data : List (String × String)
  deriving DecidableEq, Repr

/-- The receiver `r`.  `r.List` on an `InferenceServiceList` and on a
`ServingRuntimeList` are the two listing functions of the embedded client;
a listing returns its items or an error message.
`controllerutil.SetControllerReference(owner, cm, r.Scheme)` sees the
controlled object only through its metadata and either fails or yields the
owner reference it records on the object. -/
structure GuardrailsOrchestratorReconciler where
  ListInferenceServices : ListOptions → Except String (List InferenceService)
  ListServingRuntimes : ListOptions → Except String (List ServingRuntime)
  SetControllerReference : Object → String → String → Except String OwnerReference

/-! ## `GenerateOrchestratorConfigMap` -/

/-- Lines 41-43 and 94-97: `strings.Split(url, "//")[1]`, then
`strings.Split(split, ":")[0]`.  An index out of range panics. -/
def hostOfURL (url : String) : Outcome String :=
  match (Split url "//")[1]? with
  | none => .panic "index out of range [1]"
  | some split =>
    match (Split split ":")[0]? with
    | none => .panic "index out of range [0]"
    | some host => .ok host

/-- Lines 38-47: the loop over all inference services that sets
`genHost` and `genPort` from the first service with the requested name and
a non-nil URL; both stay empty when there is none. -/
def resolveGeneration (generationService : String) :
    List InferenceService → Outcome (String × String)
  | [] => .ok ("", "")
  | isvc :: rest =>
    match isvc.Status.URL with
    | some url =>
      if isvc.Name = generationService then
        (hostOfURL url).bind fun genHost => .ok (genHost, "8080")
      else resolveGeneration generationService rest
    | none => resolveGeneration generationService rest

/-- The dereference `*isvc.Spec.Predictor.Model.Runtime`, which panics on a
nil `Model` or a nil `Runtime`. -/
def derefRuntime (isvc : InferenceService) : Outcome String :=
  match isvc.Spec.Predictor.Model with
  | none => .panic "nil pointer dereference"
  | some model =>
    match model.Runtime with
    | none => .panic "nil pointer dereference"
    | some runtime => .ok runtime

/-- Lines 79-85: the inner loop looking for the first serving runtime whose
name equals the detector's runtime; the dereference happens at every
comparison. -/
def matchingRuntime (isvc : InferenceService) :
    List ServingRuntime → Outcome (Option ServingRuntime)
  | [] => .ok none
  | servingRuntime :: rest =>
    (derefRuntime isvc).bind fun runtime =>
      if servingRuntime.Name = runtime then .ok (some servingRuntime)
      else matchingRuntime isvc rest

/-- The three slices `hosts`, `ports` and `names` of lines 73-75. -/
structure Slices where
  hosts : List String
  ports : List String
  names : List String
  deriving DecidableEq, Repr

/-- Lines 77-101: one iteration of the loop over the detector services. -/
def detectorStep (servingRuntimes : List ServingRuntime) (acc : Slices)
    (isvc : InferenceService) : Outcome Slices :=
  let names := acc.names ++ [isvc.Name]
  (matchingRuntime isvc servingRuntimes).bind fun found =>
    match found with
    | none =>
      -- the log call dereferences the runtime once more, then `continue`
      (derefRuntime isvc).bind fun _ =>
        .ok { hosts := acc.hosts, ports := acc.ports, names := names }
    | some rt =>
      match rt.Spec.Containers[0]? with
      | none => .panic "index out of range [0]"
      | some container =>
        match container.Ports[0]? with
        | none => .panic "index out of range [0]"
        | some port =>
          let ports := acc.ports ++ [Itoa port.ContainerPort]
          match isvc.Status.URL with
          | none => .ok { hosts := acc.hosts, ports := ports, names := names }
          | some url =>
            (hostOfURL url).bind fun host =>
              .ok { hosts := acc.hosts ++ [host], ports := ports, names := names }

/-- Lines 76-102: the loop over the detector services. -/
def detectorLoop (servingRuntimes : List ServingRuntime) :
    List InferenceService → Slices → Outcome Slices
  | [], acc => .ok acc
  | isvc :: rest, acc =>
    (detectorStep servingRuntimes acc isvc).bind fun next =>
      detectorLoop servingRuntimes rest next

/-- The concatenation of a list of texts, in order. -/
def concatAll : List String → String
  | [] => ""
  | s :: rest => s ++ concatAll rest

/-- Lines 107-110: the text written for the generation service. -/
def generationBlock (genHost genPort : String) : String :=
  "chat_generation:\n" ++ "  service:\n" ++ ("    hostname: " ++ genHost ++ "\n")
    ++ ("    port: " ++ genPort ++ "\n")

/-- Lines 114-120: the text one iteration of the writing loop appends for
the name, host and port at one index. -/
def detectorEntry (tbl : Char → Bool) (name host port : String) : String :=
  ("  " ++ name ++ ":\n") ++ "    type: text_contents\n" ++ "    service:\n"
    ++ ("      hostname: " ++ Quote tbl host ++ "\n") ++ ("      port: " ++ port ++ "\n")
    ++ "    chunker_id: whole_doc_chunker\n" ++ "    default_threshold: 0.5\n"

/-- Lines 113-121: `for i := range names`, reading `names[i]`, `hosts[i]`
and `ports[i]`; the recursion walks `names` with the index `i`, and an
index out of the range of `hosts` or `ports` panics. -/
def writeDetectors (tbl : Char → Bool) (hosts ports : List String) :
    List String → Nat → String → Outcome String
  | [], _, configYaml => .ok configYaml
  | name :: rest, i, configYaml =>
    match hosts[i]? with
    | none => .panic "index out of range"
    | some host =>
      match ports[i]? with
      | none => .panic "index out of range"
      | some port =>
        writeDetectors tbl hosts ports rest (i + 1)
          (configYaml ++ detectorEntry tbl name host port)

/-- Lines 124-130: the text written for the built-in detector. -/
def builtInEntry : String :=
  "  regex:\n" ++ "    type: text_contents\n" ++ "    service:\n"
    ++ "      hostname: 127.0.0.1\n" ++ "      port: 8080\n"
    ++ "    chunker_id: whole_doc_chunker\n" ++ "    default_threshold: 0.5\n"

/-- Lines 30-131: everything up to `configYaml.String()`. -/
def configYaml (tbl : Char → Bool) (r : GuardrailsOrchestratorReconciler)
    (namespaceName generationService : String) (useBuiltInDetectors : Bool) :
    Outcome String :=
  match r.ListInferenceServices { Namespace := namespaceName, LabelSelector := none } with
  | .error err => .error ("Could not list all InferenceServices: " ++ err)
  | .ok allInferenceServices =>
    (resolveGeneration generationService allInferenceServices).bind fun gen =>
      if gen.1 = "" ∨ gen.2 = "" then
        .error ("could not find InferenceService with name "
          ++ Quote tbl generationService ++ " in namespace " ++ Quote tbl namespaceName)
      else
        match r.ListInferenceServices
            { Namespace := namespaceName,
              LabelSelector := some [("trustyai/guardrails", "true")] } with
        | .error err =>
          .error ("could not automatically find detector inference services: " ++ err)
        | .ok detectorInferenceServices =>
          if detectorInferenceServices.length = 0 then
            .error "could not automatically find detector inference services: %!w(<nil>)"
          else
            match r.ListServingRuntimes
                { Namespace := namespaceName, LabelSelector := none } with
            | .error err =>
              .error ("could not automatically find detector serving runtimes: " ++ err)
            | .ok servingRuntimes =>
              if servingRuntimes.length = 0 then
                .error "could not automatically find detector serving runtimes: %!w(<nil>)"
              else
                (detectorLoop servingRuntimes detectorInferenceServices
                    { hosts := [], ports := [], names := [] }).bind fun s =>
                  (writeDetectors tbl s.hosts s.ports s.names 0
                      (generationBlock gen.1 gen.2 ++ "detectors:\n")).bind fun doc =>
                    .ok (if useBuiltInDetectors then doc ++ builtInEntry else doc)

/-- Go `GenerateOrchestratorConfigMap`: the document of `configYaml` wrapped
in a ConfigMap named `orchestratorName + "-auto-config"`, with the owner
reference set; a failure to set it is returned as an error. -/
def GenerateOrchestratorConfigMap (tbl : Char → Bool)
    (r : GuardrailsOrchestratorReconciler) (orchestratorName namespaceName : String)
    (owner : Object) (generationService : String) (useBuiltInDetectors : Bool) :
    Outcome ConfigMap :=
  let configMapName := orchestratorName ++ "-auto-config"
  (configYaml tbl r namespaceName generationService useBuiltInDetectors).bind fun doc =>
    match r.SetControllerReference owner configMapName namespaceName with
    | .error err => .error ("failed to set owner reference: " ++ err)
    | .ok ref =>
      .ok { Name := configMapName, Namespace := namespaceName,
            OwnerReferences := [ref], Data := [("config.yaml", doc)] }

/-! ## A directory for concrete runs -/

/-- Whether every pair of the selector is among the labels. -/
def selects (selector : Option (List (String × String)))
    (labels : List (String × String)) : Bool :=
  match selector with
  | none => true
  | some pairs => pairs.all fun p => labels.contains p

/-- A reconciler over a fixed store of objects, in the manner of the fake
client of the test: listings filter by namespace and label selector and
never fail, and the owner reference is always set. -/
def fakeReconciler (isvcs : List InferenceService) (srs : List ServingRuntime) :
    GuardrailsOrchestratorReconciler where
  ListInferenceServices := fun opts =>
    .ok (isvcs.filter fun i => i.Namespace = opts.Namespace ∧ selects opts.LabelSelector i.Labels)
  ListServingRuntimes := fun opts =>
    .ok (srs.filter fun s => s.Namespace = opts.Namespace)
  SetControllerReference := fun owner _ _ =>
    .ok { Kind := owner.Kind, Name := owner.Name, Controller := true }

/-- A detector service: labelled `trustyai/guardrails=true`. -/
def mkDetector (name ns : String) (runtime : Option String) (url : Option String) :
    InferenceService :=
  { Name := name, Namespace := ns, Labels := [("trustyai/guardrails", "true")],
    Spec := { Predictor := { Model := some { Runtime := runtime } } },
    Status := { URL := url } }

/-- An unlabelled service with no model, as the generation service of the test. -/
def mkService (name ns : String) (url : Option String) : InferenceService :=
  { Name := name, Namespace := ns, Labels := [],
    Spec := { Predictor := { Model := none } }, Status := { URL := url } }

/-- A serving runtime with one container listening on the given ports. -/
def mkRuntime (name ns : String) (ports : List Int) : ServingRuntime :=
  { Name := name, Namespace := ns,
    Spec := { Containers := [{ Name := "predictor", Ports := ports.map fun p => ⟨p⟩ }] } }

/-- The printable table used in concrete runs (only consulted above Latin-1). -/
def noTable : Char → Bool := fun _ => false

/-- The owner used in concrete runs. -/
def testOwner : Object :=
  { Kind := "GuardrailsOrchestrator", Name := "foo", Namespace := "ns" }

/-- The generation service of the example of the specification. -/
def svcA : InferenceService :=
  mkService "svc-A" "ns" (some "https://host-A:9999")

/-- A directory with the generation service `svc-A`, two detectors `d1` and
`d2`, and their serving runtimes `rt1` and `rt2`. -/
def dirTwo : GuardrailsOrchestratorReconciler :=
  fakeReconciler
    [mkDetector "d1" "ns" (some "rt1") (some "https://d1.ns.svc:8441"),
     mkDetector "d2" "ns" (some "rt2") (some "https://d2.ns.svc:8442"), svcA]
    [mkRuntime "rt1" "ns" [8001], mkRuntime "rt2" "ns" [8002]]

/-- The ConfigMap the call returns on `dirTwo` for the orchestrator `foo`
without the built-in detector. -/
def cmTwo : ConfigMap :=
  { Name := "foo-auto-config", Namespace := "ns",
    OwnerReferences := [{ Kind := "GuardrailsOrchestrator", Name := "foo", Controller := true }],
    Data := [("config.yaml",
      "chat_generation:\n  service:\n    hostname: host-A\n    port: 8080\ndetectors:\n"
        ++ "  d1:\n    type: text_contents\n    service:\n      hostname: \"d1.ns.svc\"\n      port: 8001\n    chunker_id: whole_doc_chunker\n    default_threshold: 0.5\n"
        ++ "  d2:\n    type: text_contents\n    service:\n      hostname: \"d2.ns.svc\"\n      port: 8002\n    chunker_id: whole_doc_chunker\n    default_threshold: 0.5\n")] }

/-- The ConfigMap the call returns on `dirTwo` for the orchestrator `foo`
with the built-in detector. -/
def cmTwoBuiltIn : ConfigMap :=
  { Name := "foo-auto-config", Namespace := "ns",
    OwnerReferences := [{ Kind := "GuardrailsOrchestrator", Name := "foo", Controller := true }],
    Data := [("config.yaml",
      "chat_generation:\n  service:\n    hostname: host-A\n    port: 8080\ndetectors:\n"
        ++ "  d1:\n    type: text_contents\n    service:\n      hostname: \"d1.ns.svc\"\n      port: 8001\n    chunker_id: whole_doc_chunker\n    default_threshold: 0.5\n"
        ++ "  d2:\n    type: text_contents\n    service:\n      hostname: \"d2.ns.svc\"\n      port: 8002\n    chunker_id: whole_doc_chunker\n    default_threshold: 0.5\n"
        ++ "  regex:\n    type: text_contents\n    service:\n      hostname: 127.0.0.1\n      port: 8080\n    chunker_id: whole_doc_chunker\n    default_threshold: 0.5\n")] }

/-- The directory `dirTwo` with the runtime reference of `d1` changed to
`rt-missing`, the name of no serving runtime. -/
def dirMissingRuntime : GuardrailsOrchestratorReconciler :=
  fakeReconciler
    [mkDetector "d1" "ns" (some "rt-missing") (some "https://d1.ns.svc:8441"),
     mkDetector "d2" "ns" (some "rt2") (some "https://d2.ns.svc:8442"), svcA]
    [mkRuntime "rt1" "ns" [8001], mkRuntime "rt2" "ns" [8002]]

/-- The directory `dirTwo` with the URL of `d1` removed. -/
def dirNoURL : GuardrailsOrchestratorReconciler :=
  fakeReconciler
    [mkDetector "d1" "ns" (some "rt1") none,
     mkDetector "d2" "ns" (some "rt2") (some "https://d2.ns.svc:8442"), svcA]
    [mkRuntime "rt1" "ns" [8001], mkRuntime "rt2" "ns" [8002]]

/-- A directory whose only detector is itself named `regex`. -/
def dirRegex : GuardrailsOrchestratorReconciler :=
  fakeReconciler
    [mkDetector "regex" "ns" (some "rt1") (some "https://regex.ns.svc:8441"), svcA]
    [mkRuntime "rt1" "ns" [8001]]

/-- A directory in which only the generation service exists. -/
def dirGenerationOnly : GuardrailsOrchestratorReconciler :=
  fakeReconciler [svcA] []

/-- The generation service resolves: its listing succeeds and the loop of
lines 38-47 ends with a non-empty `genHost`. -/
def GenerationResolves (r : GuardrailsOrchestratorReconciler) (ns g : String) : Prop :=
  ∃ items genHost genPort,
    r.ListInferenceServices { Namespace := ns, LabelSelector := none } = .ok items ∧
    resolveGeneration g items = .ok (genHost, genPort) ∧ genHost ≠ ""

/-- A detector as the claim on the detector block describes it: its URL is
`scheme://H:P` or `scheme://H`, with no `/` in the scheme and neither `/`
nor `:` in `H`; its runtime reference is set; and the serving runtime of
that name (the first one in the listing) has a first container whose first
port is `port`. -/
def DetectorResolved (srs : List ServingRuntime) (d : InferenceService) (H : String)
    (port : Int) : Prop :=
  (∃ scheme P, (d.Status.URL = some (scheme ++ "://" ++ H ++ ":" ++ P)
      ∨ d.Status.URL = some (scheme ++ "://" ++ H)) ∧ '/' ∉ scheme.toList) ∧
  '/' ∉ H.toList ∧ ':' ∉ H.toList ∧
  ∃ runtime rt container containers ports,
    d.Spec.Predictor.Model = some { Runtime := some runtime } ∧
    srs.find? (fun sr => sr.Name = runtime) = some rt ∧
    rt.Spec.Containers = container :: containers ∧
    container.Ports = { ContainerPort := port } :: ports

/-- The text of one entry of the detectors block, with the hostname as it
is written: the `%q` rendering of the host for a discovered detector, the
bare address for the built-in one. -/
def entryText (name hostText port : String) : String :=
  "  " ++ name ++ ":\n    type: text_contents\n    service:\n      hostname: " ++ hostText
    ++ "\n      port: " ++ port
    ++ "\n    chunker_id: whole_doc_chunker\n    default_threshold: 0.5\n"

/-- A runtime whose first container is a sidecar without ports; the
serving container comes second. -/
def sidecarRuntime : ServingRuntime :=
  { Name := "rt1", Namespace := "ns",
    Spec := { Containers := [{ Name := "sidecar", Ports := [] },
                             { Name := "predictor", Ports := [⟨8001⟩] }] } }

/-- A directory whose only detector `d1` refers to `sidecarRuntime`. -/
def dirSidecar : GuardrailsOrchestratorReconciler :=
  fakeReconciler
    [mkDetector "d1" "ns" (some "rt1") (some "https://d1.ns.svc:8441"), svcA]
    [sidecarRuntime]

/-- A directory whose only detector `d1` refers to a runtime with an empty
port list. -/
def dirNoPorts : GuardrailsOrchestratorReconciler :=
  fakeReconciler
    [mkDetector "d1" "ns" (some "rt1") (some "https://d1.ns.svc:8441"), svcA]
    [mkRuntime "rt1" "ns" []]

/-- A directory with the generation service and the detector `d1` but no
serving runtime. -/
def dirNoRuntimes : GuardrailsOrchestratorReconciler :=
  fakeReconciler
    [mkDetector "d1" "ns" (some "rt1") (some "https://d1.ns.svc:8441"), svcA] []

/-- The directory `dirTwo` with a scheme in which the kind of the owner is
not registered, so that setting the owner reference fails. -/
def dirOwnerFails : GuardrailsOrchestratorReconciler :=
  { ListInferenceServices := dirTwo.ListInferenceServices,
    ListServingRuntimes := dirTwo.ListServingRuntimes,
    SetControllerReference := fun _ _ _ => .error "no kind is registered for the owner" }

/-- A detector of a well-formed directory: it has a URL that contains `//`,
a runtime reference, and the serving runtime of that name (the first one in
the listing) has a first container with at least one port. -/
def DetectorWellFormed (srs : List ServingRuntime) (d : InferenceService) : Prop :=
  (∃ url, d.Status.URL = some url ∧ "//".toList <:+: url.toList) ∧
  ∃ runtime rt container containers port ports,
    d.Spec.Predictor.Model = some { Runtime := some runtime } ∧
    srs.find? (fun sr => sr.Name = runtime) = some rt ∧
    rt.Spec.Containers = container :: containers ∧
    container.Ports = port :: ports

/-! ## `GetOrCreateCounter` (`controllers/metrics/metrics.go`) -/

/-- Go `prometheus.Counter` as returned by `prometheus.NewCounter`: the
options it was created with, and `id`, the rank of its creation, which
stands for the identity of the object. -/
structure Counter where
  id : Nat
  Name : String
  Help : String
  deriving DecidableEq, Repr

/-- The package state: the map `metricCounters` (its key/value pairs in
insertion order), the collectors registered in `metrics.Registry` in
registration order, and the number of counters created so far.  The mutex
`metricCountersMu` is held for a whole call, so calls run one after the
other. -/
structure MetricsState where
  metricCounters : List (String × Counter)
  registry : List Counter
  created : Nat
  deriving DecidableEq, Repr

/-- The state before any call: an empty map and an empty registry. -/
def emptyMetrics : MetricsState :=
  { metricCounters := [], registry := [], created := 0 }

/-- The map read `metricCounters[name]` with its `ok` flag. -/
def lookupCounter (name : String) : List (String × Counter) → Option Counter
  | [] => none
  | (key, c) :: rest => if key = name then some c else lookupCounter name rest

/-- Go `Registry.MustRegister`: it panics when the name of the collector is
rejected by the library's check of metric names (`validName`) or when a
collector of that name is already registered, and registers the collector
otherwise. -/
def MustRegister (validName : String → Bool) (registry : List Counter) (c : Counter) :
    Outcome (List Counter) :=
  if validName c.Name = false then .panic "descriptor is invalid"
  else if registry.any (fun r => r.Name = c.Name) then
    .panic "duplicate metrics collector registration attempted"
  else .ok (registry ++ [c])

/-- Go `GetOrCreateCounter`: the counter stored under
`"trustyai_" + task_name` if there is one; otherwise a new counter, which
is registered and stored in the map. -/
def GetOrCreateCounter (validName : String → Bool) (st : MetricsState)
    (task_name help : String) : Outcome (Counter × MetricsState) :=
  let name := "trustyai_" ++ task_name
  match lookupCounter name st.metricCounters with
  | some c => .ok (c, st)
  | none =>
    let counter : Counter := { id := st.created, Name := name, Help := help }
    (MustRegister validName st.registry counter).bind fun registry =>
      .ok (counter, { metricCounters := st.metricCounters ++ [(name, counter)],
                      registry := registry, created := st.created + 1 })

/-- A sequence of calls `GetOrCreateCounter(task_name, help)`, run one after
the other: the counters they return and the final state. -/
def callSequence (validName : String → Bool) :
    List (String × String) → MetricsState → Outcome (List Counter × MetricsState)
  | [], st => .ok ([], st)
  | call :: rest, st =>
    (GetOrCreateCounter validName st call.1 call.2).bind fun res =>
      (callSequence validName rest res.2).bind fun out =>
        .ok (res.1 :: out.1, out.2)

/-- The state is one that calls of `GetOrCreateCounter` build: the keys of
the map are pairwise distinct, each counter is stored under its own name,
the registry holds exactly the counters of the map, and as many counters
were created as the map holds. -/
def MetricsInvariant (st : MetricsState) : Prop :=
  (st.metricCounters.map (·.1)).Nodup ∧
  (∀ e ∈ st.metricCounters, e.2.Name = e.1) ∧
  st.registry = st.metricCounters.map (·.2) ∧
  st.created = st.metricCounters.length

/-! ## Reading a generated document -/

/-- The host the code extracts for a detector: the host of its URL, when it
has a URL that splits. -/
def detectorHost (d : InferenceService) : Option String :=
  match d.Status.URL with
  | none => none
  | some url =>
    match hostOfURL url with
    | .ok host => some host
    | _ => none

/-- The port the code extracts for a detector: the decimal rendering of the
first port of the first container of the first serving runtime whose name
is the runtime reference of the detector, when all of these exist. -/
def detectorPort (srs : List ServingRuntime) (d : InferenceService) : Option String :=
  match d.Spec.Predictor.Model with
  | none => none
  | some model =>
    match model.Runtime with
    | none => none
    | some runtime =>
      match srs.find? (fun sr => sr.Name = runtime) with
      | none => none
      | some rt =>
        match rt.Spec.Containers with
        | [] => none
        | container :: _ =>
          match container.Ports with
          | [] => none
          | port :: _ => some (Itoa port.ContainerPort)

/-- The lines of a document: the pieces between its line breaks. -/
def documentLines (doc : String) : List (List Char) :=
  splitAux ['\n'] 0 doc.toList []

/-- The key of a line that opens an entry of the detectors block: the line
is two spaces, then a key that does not start with a space, then a colon. -/
def entryKey (line : List Char) : Option String :=
  if line.take 2 = [' ', ' '] ∧ (line.drop 2).head? ≠ some ' '
      ∧ (line.drop 2).getLast? = some ':' then
    some (String.mk (line.drop 2).dropLast)
  else none

/-- The entry names of the detectors block of a document, in the order of
the text: the keys of the entry-opening lines after the line `detectors:`. -/
def detectorKeys (doc : String) : List String :=
  (((documentLines doc).dropWhile fun line => line ≠ "detectors:".toList).drop 1).filterMap
    entryKey

/-- A name that can be read back from the document: it holds no line break
and does not start with a space (Kubernetes names hold neither). -/
def PlainName (name : String) : Prop :=
  '\n' ∉ name.toList ∧ name.toList.head? ≠ some ' '

/-- Prometheus' legacy check of metric names: a letter, `_` or `:`, then
letters, digits, `_` or `:`. -/
def legacyValidName (name : String) : Bool :=
  match name.toList with
  | [] => false
  | c :: rest =>
    (c.isAlpha || c = '_' || c = ':') && rest.all fun x => x.isAlphanum || x = '_' || x = ':'

/-- The text whose lines are the given ones, each ended by a line break. -/
def joinLines (lines : List (List Char)) : List Char :=
  (lines.map fun line => line ++ ['\n']).flatten

/-- The seven lines of an entry of the detectors block. -/
def entryLines (name hostText port : List Char) : List (List Char) :=
  [[' ', ' '] ++ name ++ [':'],
   "    type: text_contents".toList,
   "    service:".toList,
   "      hostname: ".toList ++ hostText,
   "      port: ".toList ++ port,
   "    chunker_id: whole_doc_chunker".toList,
   "    default_threshold: 0.5".toList]

/-- The entry the document holds for a discovered detector: its name, the
host of its own URL and the port of its own serving runtime. -/
def expectedEntry (tbl : Char → Bool) (srs : List ServingRuntime) (d : InferenceService) :
    String :=
  detectorEntry tbl d.Name ((detectorHost d).getD "") ((detectorPort srs d).getD "")

/-! ## Lemmas on the library model -/

/-- A sequence that returns a value went through a first step that did. -/
theorem Outcome.bind_eq_ok {α β : Type} {x : Outcome α} {f : α → Outcome β} {b : β}
    (h : x.bind f = .ok b) : ∃ a, x = .ok a ∧ f a = .ok b := by
  cases x with
  | ok a => exact ⟨a, rfl, h⟩
  | error m => simp [Outcome.bind] at h
  | panic m => simp [Outcome.bind] at h

/-- Sequencing after a returned value runs the continuation on it. -/
@[simp]
theorem Outcome.ok_bind {α β : Type} (a : α) (f : α → Outcome β) :
    (Outcome.ok a).bind f = f a := rfl

/-- Skipping the rest of a separator occurrence. -/
theorem splitAux_skip (sep : List Char) (x b cur : List Char) :
    splitAux sep x.length (x ++ b) cur = splitAux sep 0 b cur := by
  induction x with
  | nil => simp
  | cons c t ih => simpa [splitAux] using ih

/-- A stretch without the first character of the separator joins the
current piece. -/
theorem splitAux_free (c : Char) (cs a b cur : List Char) (h : c ∉ a) :
    splitAux (c :: cs) 0 (a ++ b) cur = splitAux (c :: cs) 0 b (a.reverse ++ cur) := by
  induction a generalizing cur with
  | nil => simp
  | cons x t ih =>
    have hx : c ≠ x := fun e => h (by simp [e])
    have ht : c ∉ t := fun e => h (by simp [e])
    have hp : (c :: cs).isPrefixOf (x :: (t ++ b)) = false := by
      simp [List.isPrefixOf, hx]
    rw [List.cons_append, splitAux, if_neg (by simp [hp]), ih _ ht]
    simp

/-- The first piece extends the current one. -/
theorem splitAux_head (sep : List Char) (k : Nat) (s cur : List Char) :
    ∃ x rest, splitAux sep k s cur = (cur.reverse ++ x) :: rest := by
  induction s generalizing k cur with
  | nil => exact ⟨[], [], by simp [splitAux]⟩
  | cons c t ih =>
    cases k with
    | succ k => simpa [splitAux] using ih k cur
    | zero =>
      by_cases hp : sep.isPrefixOf (c :: t) = true
      · exact ⟨[], splitAux sep (sep.length - 1) t [], by simp [splitAux, hp]⟩
      · obtain ⟨x, rest, hx⟩ := ih 0 (c :: cur)
        exact ⟨c :: x, rest, by simp [splitAux, hp, hx]⟩

/-- Splitting `scheme://rest` on `//`: the first piece is `scheme:`. -/
theorem splitAux_slashes (scheme rest : List Char) (hs : '/' ∉ scheme) :
    splitAux ['/', '/'] 0 (scheme ++ ':' :: '/' :: '/' :: rest) []
      = (scheme ++ [':']) :: splitAux ['/', '/'] 0 rest [] := by
  have hs2 : '/' ∉ scheme ++ [':'] := by
    simp only [List.mem_append, List.mem_singleton, not_or]
    exact ⟨hs, by decide⟩
  have e : scheme ++ ':' :: '/' :: '/' :: rest = (scheme ++ [':']) ++ '/' :: '/' :: rest := by
    simp
  rw [e, splitAux_free _ _ _ _ _ hs2]
  simp [splitAux, List.isPrefixOf]

/-- The piece that starts with a host free of `/`, when the host is followed
by nothing or by a colon. -/
theorem splitAux_host_piece (H tail : List Char) (h1 : '/' ∉ H)
    (ht : tail = [] ∨ ∃ P, tail = ':' :: P) :
    ∃ y rest, splitAux ['/', '/'] 0 (H ++ tail) [] = (H ++ y) :: rest
      ∧ (y = [] ∨ ∃ x, y = ':' :: x) := by
  rcases ht with rfl | ⟨P, rfl⟩
  · refine ⟨[], [], ?_, Or.inl rfl⟩
    rw [splitAux_free _ _ _ _ _ h1]
    simp [splitAux]
  · have h3 : '/' ∉ H ++ [':'] := by
      simp only [List.mem_append, List.mem_singleton, not_or]
      exact ⟨h1, by decide⟩
    have e : H ++ ':' :: P = (H ++ [':']) ++ P := by simp
    obtain ⟨x, rest, hx⟩ := splitAux_head ['/', '/'] 0 P ((H ++ [':']).reverse ++ [])
    refine ⟨':' :: x, rest, ?_, Or.inr ⟨x, rfl⟩⟩
    rw [e, splitAux_free _ _ _ _ _ h3, hx]
    simp

/-- Splitting `host` or `host:...` on `:`: the first piece is the host. -/
theorem splitAux_colon (H y : List Char) (h2 : ':' ∉ H)
    (hy : y = [] ∨ ∃ x, y = ':' :: x) :
    ∃ rest, splitAux [':'] 0 (H ++ y) [] = H :: rest := by
  rw [splitAux_free _ _ _ _ _ h2]
  rcases hy with rfl | ⟨x, rfl⟩
  · exact ⟨[], by simp [splitAux]⟩
  · exact ⟨splitAux [':'] 0 x [], by simp [splitAux, List.isPrefixOf]⟩

/-- The host extracted from a URL `scheme://H` or `scheme://H:P`. -/
theorem hostOfURL_chars (scheme H tail : List Char) (hs : '/' ∉ scheme) (h1 : '/' ∉ H)
    (h2 : ':' ∉ H) (ht : tail = [] ∨ ∃ P, tail = ':' :: P) :
    hostOfURL (String.mk (scheme ++ ':' :: '/' :: '/' :: (H ++ tail))) = .ok (String.mk H) := by
  obtain ⟨y, rest, hy, hy2⟩ := splitAux_host_piece H tail h1 ht
  obtain ⟨rest2, hc⟩ := splitAux_colon H y h2 hy2
  have d1 : ("//" : String).data = ['/', '/'] := rfl
  have d2 : (":" : String).data = [':'] := rfl
  simp [hostOfURL, Split, d1, d2, splitAux_slashes _ _ hs, hy, hc]

/-- The host extracted from a URL `scheme://H` or `scheme://H:P`, on strings. -/
theorem hostOfURL_form (url scheme H P : String)
    (hform : url = scheme ++ "://" ++ H ++ ":" ++ P ∨ url = scheme ++ "://" ++ H)
    (hs : '/' ∉ scheme.toList) (h1 : '/' ∉ H.toList) (h2 : ':' ∉ H.toList) :
    hostOfURL url = .ok H := by
  have d3 : ("://" : String).data = [':', '/', '/'] := rfl
  have d4 : (":" : String).data = [':'] := rfl
  rcases hform with rfl | rfl
  · have e : scheme ++ "://" ++ H ++ ":" ++ P
        = String.mk (scheme.data ++ ':' :: '/' :: '/' :: (H.data ++ ':' :: P.data)) := by
      apply String.ext
      simp [String.data_append, d3, d4]
    rw [e]
    exact hostOfURL_chars _ _ _ hs h1 h2 (Or.inr ⟨_, rfl⟩)
  · have e : scheme ++ "://" ++ H
        = String.mk (scheme.data ++ ':' :: '/' :: '/' :: (H.data ++ [])) := by
      apply String.ext
      simp [String.data_append, d3]
    rw [e]
    exact hostOfURL_chars _ _ _ hs h1 h2 (Or.inl rfl)

/-! ## Lemmas on the phases of `GenerateOrchestratorConfigMap` -/

/-- With pairwise distinct names, the generation loop stops at the one
service of the requested name, when that service has a URL. -/
theorem resolveGeneration_of_mem (g url : String) (svc : InferenceService) :
    ∀ items : List InferenceService, (items.map (·.Name)).Nodup → svc ∈ items →
      svc.Name = g → svc.Status.URL = some url →
      resolveGeneration g items = (hostOfURL url).bind fun genHost => .ok (genHost, "8080")
  | [], _, hmem, _, _ => by simp at hmem
  | isvc :: rest, hnd, hmem, hname, hurl => by
    rw [List.map_cons, List.nodup_cons] at hnd
    rcases List.mem_cons.1 hmem with rfl | hin
    · simp [resolveGeneration, hurl, hname]
    · have hne : isvc.Name ≠ g := by
        intro e
        apply hnd.1
        rw [e, ← hname]
        exact List.mem_map_of_mem _ hin
      have ih := resolveGeneration_of_mem g url svc rest hnd.2 hin hname hurl
      cases hu : isvc.Status.URL <;> simp [resolveGeneration, hu, hne, ih]

/-- Without a service of the requested name that has a URL, the generation
loop leaves `genHost` and `genPort` empty. -/
theorem resolveGeneration_none (g : String) :
    ∀ items : List InferenceService,
      (∀ s ∈ items, ¬ (s.Name = g ∧ s.Status.URL ≠ none)) →
      resolveGeneration g items = .ok ("", "")
  | [], _ => rfl
  | isvc :: rest, h => by
    have ih := resolveGeneration_none g rest (fun s hs => h s (List.mem_cons_of_mem _ hs))
    have h0 := h isvc (List.mem_cons_self _ _)
    cases hu : isvc.Status.URL with
    | none => simp [resolveGeneration, hu, ih]
    | some url =>
      have hne : isvc.Name ≠ g := fun e => h0 ⟨e, by simp [hu]⟩
      simp [resolveGeneration, hu, hne, ih]

/-- The generation loop returns the port `8080` with every non-empty host. -/
theorem resolveGeneration_port (g : String) :
    ∀ (items : List InferenceService) (gen : String × String),
      resolveGeneration g items = .ok gen → gen.1 ≠ "" → gen.2 = "8080"
  | [], gen, h, hne => by
    simp only [resolveGeneration, Outcome.ok.injEq] at h
    subst h
    exact absurd rfl hne
  | isvc :: rest, gen, h, hne => by
    cases hu : isvc.Status.URL with
    | none =>
      rw [resolveGeneration, hu] at h
      exact resolveGeneration_port g rest gen h hne
    | some url =>
      rw [resolveGeneration, hu] at h
      dsimp only at h
      by_cases hn : isvc.Name = g
      · rw [if_pos hn] at h
        obtain ⟨host, _, hh⟩ := Outcome.bind_eq_ok h
        simp only [Outcome.ok.injEq] at hh
        subst hh
        rfl
      · rw [if_neg hn] at h
        exact resolveGeneration_port g rest gen h hne

/-- A successful writing loop appends one entry per name, in the order of
the names, with the hosts and ports found from index `i` on. -/
theorem writeDetectors_ok (tbl : Char → Bool) (hosts ports : List String) :
    ∀ (names : List String) (i : Nat) (buf doc : String),
      writeDetectors tbl hosts ports names i buf = .ok doc →
      names.length ≤ (hosts.drop i).length ∧ names.length ≤ (ports.drop i).length ∧
      doc = buf ++ concatAll
        (List.zipWith3 (detectorEntry tbl) names (hosts.drop i) (ports.drop i))
  | [], i, buf, doc, h => by
    simp only [writeDetectors, Outcome.ok.injEq] at h
    subst h
    simp [List.zipWith3, concatAll]
  | name :: rest, i, buf, doc, h => by
    rw [writeDetectors] at h
    cases hh : hosts[i]? with
    | none => simp [hh] at h
    | some host =>
      cases hp : ports[i]? with
      | none => simp [hh, hp] at h
      | some port =>
        simp only [hh, hp] at h
        obtain ⟨ih1, ih2, ih3⟩ := writeDetectors_ok tbl hosts ports rest (i + 1) _ doc h
        have hi : i < hosts.length := (List.getElem?_eq_some.1 hh).1
        have pi : i < ports.length := (List.getElem?_eq_some.1 hp).1
        have eh : hosts.drop i = host :: hosts.drop (i + 1) := by
          rw [List.drop_eq_getElem_cons hi]
          congr 1
          exact (List.getElem?_eq_some.1 hh).2
        have ep : ports.drop i = port :: ports.drop (i + 1) := by
          rw [List.drop_eq_getElem_cons pi]
          congr 1
          exact (List.getElem?_eq_some.1 hp).2
        rw [eh, ep]
        refine ⟨by simpa using ih1, by simpa using ih2, ?_⟩
        rw [ih3]
        simp [List.zipWith3, concatAll, String.append_assoc]

/-- The inner loop finds the first serving runtime of the referenced name. -/
theorem matchingRuntime_find (d : InferenceService) (runtime : String)
    (h : derefRuntime d = .ok runtime) :
    ∀ srs : List ServingRuntime,
      matchingRuntime d srs = .ok (srs.find? fun sr => sr.Name = runtime)
  | [] => rfl
  | sr :: rest => by
    have ih := matchingRuntime_find d runtime h rest
    by_cases hn : sr.Name = runtime <;> simp [matchingRuntime, h, hn, ih, List.find?]

/-- One iteration on a detector that resolves appends to all three slices. -/
theorem detectorStep_resolved (srs : List ServingRuntime) (acc : Slices)
    (d : InferenceService) (H : String) (port : Int) (h : DetectorResolved srs d H port) :
    detectorStep srs acc d = .ok
      { hosts := acc.hosts ++ [H], ports := acc.ports ++ [Itoa port],
        names := acc.names ++ [d.Name] } := by
  obtain ⟨⟨scheme, P, hurl, hs⟩, h1, h2, runtime, rt, c, cs, ps, hm, hf, hc, hp⟩ := h
  have hd : derefRuntime d = .ok runtime := by simp [derefRuntime, hm]
  have hu : ∃ url, d.Status.URL = some url ∧ hostOfURL url = .ok H := by
    rcases hurl with e | e
    · exact ⟨_, e, hostOfURL_form _ scheme H P (Or.inl rfl) hs h1 h2⟩
    · exact ⟨_, e, hostOfURL_form _ scheme H P (Or.inr rfl) hs h1 h2⟩
  obtain ⟨url, hu1, hu2⟩ := hu
  simp [detectorStep, matchingRuntime_find d runtime hd srs, hf, hc, hp, hu1, hu2]

/-- The loop over detectors that all resolve. -/
theorem detectorLoop_resolved (srs : List ServingRuntime) :
    ∀ (ds : List InferenceService) (es : List (String × Int)) (acc : Slices),
      List.Forall₂ (fun d e => DetectorResolved srs d e.1 e.2) ds es →
      detectorLoop srs ds acc = .ok
        { hosts := acc.hosts ++ es.map (·.1),
          ports := acc.ports ++ es.map (fun e => Itoa e.2),
          names := acc.names ++ ds.map (·.Name) }
  | [], es, acc, h => by
    cases h
    simp [detectorLoop]
  | d :: ds, es, acc, h => by
    cases h with
    | cons hd htl =>
      simp [detectorLoop, detectorStep_resolved srs acc d _ _ hd,
        detectorLoop_resolved srs ds _ _ htl]

/-- Zipping three mapped lists. -/
theorem zipWith3_map {α β γ : Type} (f : String → String → String → γ) (a : α → String)
    (b c : β → String) :
    ∀ (xs : List α) (ys : List β),
      List.zipWith3 f (xs.map a) (ys.map b) (ys.map c)
        = List.zipWith (fun x y => f (a x) (b y) (c y)) xs ys
  | [], _ => by simp [List.zipWith3]
  | _ :: _, [] => by simp [List.zipWith3]
  | x :: xs, y :: ys => by simp [List.zipWith3, zipWith3_map f a b c xs ys]

/-- The text of one detector entry, field by field. -/
theorem detectorEntry_text (tbl : Char → Bool) (name host port : String) :
    detectorEntry tbl name host port
      = "  " ++ name ++ ":\n    type: text_contents\n    service:\n      hostname: "
        ++ Quote tbl host ++ "\n      port: " ++ port
        ++ "\n    chunker_id: whole_doc_chunker\n    default_threshold: 0.5\n" := by
  apply String.ext
  simp [detectorEntry, String.data_append]

/-- The text of the built-in entry. -/
theorem builtInEntry_text :
    builtInEntry = "  regex:\n    type: text_contents\n    service:\n      hostname: 127.0.0.1\n      port: 8080\n    chunker_id: whole_doc_chunker\n    default_threshold: 0.5\n" := by
  decide

/-- A character that `strconv.Quote` copies unchanged. -/
theorem appendEscapedRune_plain (tbl : Char → Bool) (c : Char)
    (h : IsPrint tbl c = true ∧ c ≠ Char.ofNat 34 ∧ c ≠ Char.ofNat 92) :
    appendEscapedRune tbl c = [c] := by
  simp [appendEscapedRune, h.1, h.2.1, h.2.2]

/-- A text of printable characters other than the double quote and the
backslash is quoted by putting it between double quotes. -/
theorem Quote_plain (tbl : Char → Bool) (s : String)
    (h : ∀ c ∈ s.toList, IsPrint tbl c = true ∧ c ≠ Char.ofNat 34 ∧ c ≠ Char.ofNat 92) :
    Quote tbl s = "\"" ++ s ++ "\"" := by
  have key : ∀ l : List Char,
      (∀ c ∈ l, IsPrint tbl c = true ∧ c ≠ Char.ofNat 34 ∧ c ≠ Char.ofNat 92) →
      (l.map (appendEscapedRune tbl)).flatten = l := by
    intro l
    induction l with
    | nil => intro _; rfl
    | cons c t ih =>
      intro hl
      have hc := appendEscapedRune_plain tbl c (hl c (List.mem_cons_self _ _))
      have ht := ih (fun x hx => hl x (List.mem_cons_of_mem _ hx))
      simp [hc, ht]
  apply String.ext
  have k := key s.data h
  simp only [Quote, String.data_append, k]
  rfl

/-- What a successful run of `configYaml` went through. -/
theorem configYaml_ok (tbl : Char → Bool) (r : GuardrailsOrchestratorReconciler)
    (ns g : String) (b : Bool) (doc : String) (h : configYaml tbl r ns g b = .ok doc) :
    ∃ items genHost ds srs s body,
      r.ListInferenceServices { Namespace := ns, LabelSelector := none } = .ok items ∧
      resolveGeneration g items = .ok (genHost, "8080") ∧ genHost ≠ "" ∧
      r.ListInferenceServices
        { Namespace := ns, LabelSelector := some [("trustyai/guardrails", "true")] } = .ok ds ∧
      ds ≠ [] ∧
      r.ListServingRuntimes { Namespace := ns, LabelSelector := none } = .ok srs ∧
      srs ≠ [] ∧
      detectorLoop srs ds { hosts := [], ports := [], names := [] } = .ok s ∧
      writeDetectors tbl s.hosts s.ports s.names 0
        (generationBlock genHost "8080" ++ "detectors:\n") = .ok body ∧
      doc = (if b then body ++ builtInEntry else body) := by
  unfold configYaml at h
  cases h1 : r.ListInferenceServices { Namespace := ns, LabelSelector := none } with
  | error e => simp [h1] at h
  | ok items =>
    simp only [h1] at h
    obtain ⟨gen, hgen, h⟩ := Outcome.bind_eq_ok h
    by_cases hg : gen.1 = "" ∨ gen.2 = ""
    · simp [hg] at h
    · rw [if_neg hg] at h
      have hg1 : gen.1 ≠ "" := fun e => hg (Or.inl e)
      have hg2 : gen.2 = "8080" := resolveGeneration_port g items gen hgen hg1
      cases h2 : r.ListInferenceServices
          { Namespace := ns, LabelSelector := some [("trustyai/guardrails", "true")] } with
      | error e => simp [h2] at h
      | ok ds =>
        simp only [h2] at h
        by_cases hd : ds.length = 0
        · simp [hd] at h
        · rw [if_neg hd] at h
          cases h3 : r.ListServingRuntimes { Namespace := ns, LabelSelector := none } with
          | error e => simp [h3] at h
          | ok srs =>
            simp only [h3] at h
            by_cases hr : srs.length = 0
            · simp [hr] at h
            · rw [if_neg hr] at h
              obtain ⟨s, hs, h⟩ := Outcome.bind_eq_ok h
              obtain ⟨body, hb, h⟩ := Outcome.bind_eq_ok h
              simp only [Outcome.ok.injEq] at h
              refine ⟨items, gen.1, ds, srs, s, body, rfl, ?_, hg1, rfl, ?_, rfl, ?_, hs, ?_,
                h.symm⟩
              · rw [hgen, ← hg2]
              · exact fun e => hd (by simp [e])
              · exact fun e => hr (by simp [e])
              · rw [← hg2]; exact hb

/-- With the built-in detectors the document is the one without them,
followed by the built-in entry; errors and panics are the same. -/
theorem configYaml_builtIn (tbl : Char → Bool) (r : GuardrailsOrchestratorReconciler)
    (ns g : String) :
    configYaml tbl r ns g true
      = (configYaml tbl r ns g false).map fun doc => doc ++ builtInEntry := by
  unfold configYaml
  cases r.ListInferenceServices { Namespace := ns, LabelSelector := none } with
  | error e => rfl
  | ok items =>
    dsimp only
    cases resolveGeneration g items with
    | error e => rfl
    | panic e => rfl
    | ok gen =>
      simp only [Outcome.ok_bind]
      by_cases hg : gen.1 = "" ∨ gen.2 = ""
      · simp only [if_pos hg]; rfl
      · simp only [if_neg hg]
        cases r.ListInferenceServices
            { Namespace := ns, LabelSelector := some [("trustyai/guardrails", "true")] } with
        | error e => rfl
        | ok ds =>
          dsimp only
          by_cases hd : ds.length = 0
          · simp only [if_pos hd]; rfl
          · simp only [if_neg hd]
            cases r.ListServingRuntimes { Namespace := ns, LabelSelector := none } with
            | error e => rfl
            | ok srs =>
              dsimp only
              by_cases hr : srs.length = 0
              · simp only [if_pos hr]; rfl
              · simp only [if_neg hr]
                cases detectorLoop srs ds { hosts := [], ports := [], names := [] } with
                | error e => rfl
                | panic e => rfl
                | ok s =>
                  simp only [Outcome.ok_bind]
                  cases writeDetectors tbl s.hosts s.ports s.names 0
                      (generationBlock gen.1 gen.2 ++ "detectors:\n") with
                  | error e => rfl
                  | panic e => rfl
                  | ok body => rfl

/-- One iteration of the detector loop appends the name of the service. -/
theorem detectorStep_names (srs : List ServingRuntime) (acc next : Slices)
    (d : InferenceService) (h : detectorStep srs acc d = .ok next) :
    next.names = acc.names ++ [d.Name] := by
  unfold detectorStep at h
  obtain ⟨found, -, h⟩ := Outcome.bind_eq_ok h
  cases found with
  | none =>
    obtain ⟨_, -, h⟩ := Outcome.bind_eq_ok h
    simp only [Outcome.ok.injEq] at h
    rw [← h]
  | some rt =>
    dsimp only at h
    cases hc : rt.Spec.Containers[0]? with
    | none => simp [hc] at h
    | some c =>
      simp only [hc] at h
      cases hp : c.Ports[0]? with
      | none => simp [hp] at h
      | some p =>
        simp only [hp] at h
        cases hu : d.Status.URL with
        | none =>
          simp only [hu, Outcome.ok.injEq] at h
          rw [← h]
        | some url =>
          simp only [hu] at h
          obtain ⟨host, -, h⟩ := Outcome.bind_eq_ok h
          simp only [Outcome.ok.injEq] at h
          rw [← h]

/-- The detector loop appends the names of the services, in their order. -/
theorem detectorLoop_names (srs : List ServingRuntime) :
    ∀ (ds : List InferenceService) (acc s : Slices),
      detectorLoop srs ds acc = .ok s → s.names = acc.names ++ ds.map (·.Name)
  | [], acc, s, h => by
    simp only [detectorLoop, Outcome.ok.injEq] at h
    simp [h]
  | d :: ds, acc, s, h => by
    rw [detectorLoop] at h
    obtain ⟨next, hn, h⟩ := Outcome.bind_eq_ok h
    rw [detectorLoop_names srs ds next s h, detectorStep_names srs acc next d hn]
    simp

/-- What a successful run of `GenerateOrchestratorConfigMap` returns. -/
theorem generate_ok (tbl : Char → Bool) (r : GuardrailsOrchestratorReconciler)
    (orchestratorName ns : String) (owner : Object) (g : String) (b : Bool) (cm : ConfigMap)
    (h : GenerateOrchestratorConfigMap tbl r orchestratorName ns owner g b = .ok cm) :
    ∃ doc ref, configYaml tbl r ns g b = .ok doc ∧
      r.SetControllerReference owner (orchestratorName ++ "-auto-config") ns = .ok ref ∧
      cm = { Name := orchestratorName ++ "-auto-config", Namespace := ns,
             OwnerReferences := [ref], Data := [("config.yaml", doc)] } := by
  unfold GenerateOrchestratorConfigMap at h
  obtain ⟨doc, hdoc, h⟩ := Outcome.bind_eq_ok h
  cases hr : r.SetControllerReference owner (orchestratorName ++ "-auto-config") ns with
  | error e => simp [hr] at h
  | ok ref =>
    simp only [hr, Outcome.ok.injEq] at h
    exact ⟨doc, ref, hdoc, rfl, h.symm⟩

/-- One iteration of the detector loop appends at most one host, and
appends one only for a service with a matching serving runtime and a URL. -/
theorem detectorStep_hosts (srs : List ServingRuntime) (acc next : Slices)
    (d : InferenceService) (h : detectorStep srs acc d = .ok next) :
    next.hosts.length ≤ acc.hosts.length + 1 ∧
      (next.hosts.length = acc.hosts.length + 1 →
        (∃ rt, matchingRuntime d srs = .ok (some rt)) ∧ d.Status.URL ≠ none) := by
  unfold detectorStep at h
  obtain ⟨found, hf, h⟩ := Outcome.bind_eq_ok h
  cases found with
  | none =>
    obtain ⟨_, -, h⟩ := Outcome.bind_eq_ok h
    simp only [Outcome.ok.injEq] at h
    rw [← h]
    exact ⟨Nat.le_succ _, fun e => absurd e (by simp)⟩
  | some rt =>
    dsimp only at h
    cases hc : rt.Spec.Containers[0]? with
    | none => simp [hc] at h
    | some c =>
      simp only [hc] at h
      cases hp : c.Ports[0]? with
      | none => simp [hp] at h
      | some p =>
        simp only [hp] at h
        cases hu : d.Status.URL with
        | none =>
          simp only [hu, Outcome.ok.injEq] at h
          rw [← h]
          exact ⟨Nat.le_succ _, fun e => absurd e (by simp)⟩
        | some url =>
          simp only [hu] at h
          obtain ⟨host, -, h⟩ := Outcome.bind_eq_ok h
          simp only [Outcome.ok.injEq] at h
          rw [← h]
          exact ⟨by simp, fun _ => ⟨⟨rt, hf⟩, by simp⟩⟩

/-- The detector loop appends at most one host per service, and one per
service only when every service has a matching serving runtime and a URL. -/
theorem detectorLoop_hosts (srs : List ServingRuntime) :
    ∀ (ds : List InferenceService) (acc s : Slices),
      detectorLoop srs ds acc = .ok s →
      s.hosts.length ≤ acc.hosts.length + ds.length ∧
        (s.hosts.length = acc.hosts.length + ds.length →
          ∀ d ∈ ds, (∃ rt, matchingRuntime d srs = .ok (some rt)) ∧ d.Status.URL ≠ none)
  | [], acc, s, h => by
    simp only [detectorLoop, Outcome.ok.injEq] at h
    subst h
    simp
  | d :: ds, acc, s, h => by
    rw [detectorLoop] at h
    obtain ⟨next, hn, h⟩ := Outcome.bind_eq_ok h
    obtain ⟨s1, s2⟩ := detectorStep_hosts srs acc next d hn
    obtain ⟨l1, l2⟩ := detectorLoop_hosts srs ds next s h
    simp only [List.length_cons]
    refine ⟨by omega, fun e => ?_⟩
    have e1 : next.hosts.length = acc.hosts.length + 1 := by omega
    have e2 : s.hosts.length = next.hosts.length + ds.length := by omega
    intro x hx
    rcases List.mem_cons.1 hx with rfl | hx
    · exact s2 e1
    · exact l2 e2 x hx

/-- A run succeeds only when every discovered detector has a matching
serving runtime and a URL: otherwise `hosts` is shorter than `names` and
the writing loop panics. -/
theorem ok_needs_complete_detectors (tbl : Char → Bool)
    (r : GuardrailsOrchestratorReconciler) (orchestratorName ns : String) (owner : Object)
    (g : String) (b : Bool) (ds : List InferenceService) (srs : List ServingRuntime)
    (cm : ConfigMap)
    (hdet : r.ListInferenceServices
      { Namespace := ns, LabelSelector := some [("trustyai/guardrails", "true")] } = .ok ds)
    (hrt : r.ListServingRuntimes { Namespace := ns, LabelSelector := none } = .ok srs)
    (hok : GenerateOrchestratorConfigMap tbl r orchestratorName ns owner g b = .ok cm) :
    ∀ d ∈ ds, (∃ rt, matchingRuntime d srs = .ok (some rt)) ∧ d.Status.URL ≠ none := by
  obtain ⟨doc, ref, hdoc, -, -⟩ := generate_ok tbl r orchestratorName ns owner g b cm hok
  obtain ⟨items, genHost, ds2, srs2, s, body, -, -, -, h3, -, h4, -, hl, hw, -⟩ :=
    configYaml_ok tbl r ns g b doc hdoc
  rw [hdet] at h3
  cases h3
  rw [hrt] at h4
  cases h4
  have hn := detectorLoop_names srs ds _ s hl
  obtain ⟨l1, l2⟩ := detectorLoop_hosts srs ds _ s hl
  obtain ⟨w1, -, -⟩ := writeDetectors_ok tbl _ _ _ _ _ _ hw
  simp only [List.drop_zero, hn, List.nil_append, List.length_map] at w1
  simp only [List.length_nil, Nat.zero_add] at l1 l2
  exact l2 (by omega)

/-- A discovered detector whose runtime reference names no serving runtime
keeps every run from succeeding. -/
theorem missing_runtime_never_ok (tbl : Char → Bool)
    (r : GuardrailsOrchestratorReconciler) (orchestratorName ns : String) (owner : Object)
    (g : String) (b : Bool) (ds : List InferenceService) (srs : List ServingRuntime)
    (d : InferenceService) (runtime : String)
    (hdet : r.ListInferenceServices
      { Namespace := ns, LabelSelector := some [("trustyai/guardrails", "true")] } = .ok ds)
    (hrt : r.ListServingRuntimes { Namespace := ns, LabelSelector := none } = .ok srs)
    (hd : d ∈ ds) (href : d.Spec.Predictor.Model = some { Runtime := some runtime })
    (hnone : ∀ sr ∈ srs, sr.Name ≠ runtime) :
    (GenerateOrchestratorConfigMap tbl r orchestratorName ns owner g b).isOk = false := by
  cases hok : GenerateOrchestratorConfigMap tbl r orchestratorName ns owner g b with
  | error e => rfl
  | panic e => rfl
  | ok cm =>
    exfalso
    obtain ⟨⟨rt, hm⟩, -⟩ :=
      ok_needs_complete_detectors tbl r orchestratorName ns owner g b ds srs cm hdet hrt hok d hd
    have hde : derefRuntime d = .ok runtime := by simp [derefRuntime, href]
    rw [matchingRuntime_find d runtime hde srs] at hm
    simp only [Outcome.ok.injEq] at hm
    have := List.find?_some hm
    have hmem := List.mem_of_find?_eq_some hm
    exact hnone rt hmem (by simpa using this)

/-- A discovered detector without a URL keeps every run from succeeding. -/
theorem missing_url_never_ok (tbl : Char → Bool)
    (r : GuardrailsOrchestratorReconciler) (orchestratorName ns : String) (owner : Object)
    (g : String) (b : Bool) (ds : List InferenceService) (d : InferenceService)
    (hdet : r.ListInferenceServices
      { Namespace := ns, LabelSelector := some [("trustyai/guardrails", "true")] } = .ok ds)
    (hd : d ∈ ds) (hurl : d.Status.URL = none) :
    (GenerateOrchestratorConfigMap tbl r orchestratorName ns owner g b).isOk = false := by
  cases hok : GenerateOrchestratorConfigMap tbl r orchestratorName ns owner g b with
  | error e => rfl
  | panic e => rfl
  | ok cm =>
    exfalso
    obtain ⟨doc, ref, hdoc, -, -⟩ := generate_ok tbl r orchestratorName ns owner g b cm hok
    obtain ⟨items, genHost, ds2, srs, s, body, -, -, -, h3, -, h4, -, -, -, -⟩ :=
      configYaml_ok tbl r ns g b doc hdoc
    rw [hdet] at h3
    cases h3
    exact (ok_needs_complete_detectors tbl r orchestratorName ns owner g b ds srs cm hdet h4
      hok d hd).2 hurl

/-! ## The claims -/

/-- C1 (generation resolution).  When the listing of the namespace (names
pairwise distinct, as the directory guarantees) contains a service named
`g` whose URL is `scheme://H:P` or `scheme://H`, with no `/` in the scheme
and neither `:` nor `/` in `H`, every successful run returns a document
under `config.yaml` that begins with the generation block with hostname
`H` and port `8080`, whatever `P` is.  A run can only succeed with `H`
non-empty, so that condition is not needed as a hypothesis. -/
theorem generation_resolution (tbl : Char → Bool) (r : GuardrailsOrchestratorReconciler)
    (orchestratorName ns : String) (owner : Object) (g : String) (b : Bool)
    (items : List InferenceService) (svc : InferenceService) (url scheme H P : String)
    (cm : ConfigMap)
    (hlist : r.ListInferenceServices { Namespace := ns, LabelSelector := none } = .ok items)
    (hnames : (items.map (·.Name)).Nodup)
    (hmem : svc ∈ items) (hname : svc.Name = g) (hurl : svc.Status.URL = some url)
    (hform : url = scheme ++ "://" ++ H ++ ":" ++ P ∨ url = scheme ++ "://" ++ H)
    (hscheme : '/' ∉ scheme.toList) (hcolon : ':' ∉ H.toList) (hslash : '/' ∉ H.toList)
    (hok : GenerateOrchestratorConfigMap tbl r orchestratorName ns owner g b = .ok cm) :
    ∃ rest, cm.Data = [("config.yaml",
      "chat_generation:\n  service:\n    hostname: " ++ H ++ "\n    port: 8080\n" ++ rest)] := by
  obtain ⟨doc, ref, hdoc, -, rfl⟩ := generate_ok tbl r orchestratorName ns owner g b cm hok
  obtain ⟨items2, genHost, ds, srs, s, body, h1, h2, -, -, -, -, -, -, hw, hd⟩ :=
    configYaml_ok tbl r ns g b doc hdoc
  rw [hlist] at h1
  cases h1
  rw [resolveGeneration_of_mem g url svc items hnames hmem hname hurl,
    hostOfURL_form url scheme H P hform hscheme hslash hcolon] at h2
  simp only [Outcome.ok_bind, Outcome.ok.injEq, Prod.mk.injEq, and_true] at h2
  subst h2
  obtain ⟨-, -, hbody⟩ := writeDetectors_ok tbl _ _ _ _ _ _ hw
  refine ⟨"detectors:\n" ++ (concatAll (List.zipWith3 (detectorEntry tbl) s.names
    (List.drop 0 s.hosts) (List.drop 0 s.ports)) ++ (if b then builtInEntry else "")), ?_⟩
  have key : doc = "chat_generation:\n  service:\n    hostname: " ++ H ++ "\n    port: 8080\n"
      ++ ("detectors:\n" ++ (concatAll (List.zipWith3 (detectorEntry tbl) s.names
        (List.drop 0 s.hosts) (List.drop 0 s.ports)) ++ (if b then builtInEntry else ""))) := by
    rw [hd, hbody]
    apply String.ext
    cases b <;> simp [generationBlock, String.data_append]
  rw [key]

/-- Witness for C1: the example of the specification, `svc-A` at
`https://host-A:9999`; the run succeeds and its document begins with the
block for `host-A` and `8080`. -/
theorem generation_resolution_witness :
    GenerateOrchestratorConfigMap noTable dirTwo "foo" "ns" testOwner "svc-A" true
      = .ok cmTwoBuiltIn
    ∧ ∃ rest, cmTwoBuiltIn.Data = [("config.yaml",
        "chat_generation:\n  service:\n    hostname: " ++ "host-A" ++ "\n    port: 8080\n"
          ++ rest)] :=
  ⟨by decide,
    generation_resolution noTable dirTwo "foo" "ns" testOwner "svc-A" true
      [mkDetector "d1" "ns" (some "rt1") (some "https://d1.ns.svc:8441"),
       mkDetector "d2" "ns" (some "rt2") (some "https://d2.ns.svc:8442"), svcA]
      svcA "https://host-A:9999" "https" "host-A" "9999" cmTwoBuiltIn
      rfl (by decide) (by decide) rfl rfl (Or.inl (by decide))
      (by decide) (by decide) (by decide) (by decide)⟩

/-- C2 (missing generation service is fatal).  When the listing of the namespace
succeeds and holds no service that is named `g` and has a URL, the call returns the error naming the service and the namespace, hence no
ConfigMap, whatever the detectors, the runtimes and `useBuiltInDetectors`
are. -/
theorem missing_generation_service_fatal (tbl : Char → Bool)
    (r : GuardrailsOrchestratorReconciler) (orchestratorName ns : String) (owner : Object)
    (g : String) (b : Bool) (items : List InferenceService)
    (hlist : r.ListInferenceServices { Namespace := ns, LabelSelector := none } = .ok items)
    (hnone : ∀ s ∈ items, ¬ (s.Name = g ∧ s.Status.URL ≠ none)) :
    GenerateOrchestratorConfigMap tbl r orchestratorName ns owner g b
      = .error ("could not find InferenceService with name " ++ Quote tbl g
          ++ " in namespace " ++ Quote tbl ns) := by
  simp [GenerateOrchestratorConfigMap, configYaml, hlist, resolveGeneration_none g items hnone,
    Outcome.bind]

/-- Witness for C2: the directory of two detectors has no service `absent`. -/
theorem missing_generation_service_fatal_witness :
    GenerateOrchestratorConfigMap noTable dirTwo "foo" "ns" testOwner "absent" true
      = .error ("could not find InferenceService with name " ++ Quote noTable "absent"
          ++ " in namespace " ++ Quote noTable "ns") :=
  missing_generation_service_fatal noTable dirTwo "foo" "ns" testOwner "absent" true
    [mkDetector "d1" "ns" (some "rt1") (some "https://d1.ns.svc:8441"),
     mkDetector "d2" "ns" (some "rt2") (some "https://d2.ns.svc:8442"), svcA]
    rfl (by decide)

/-- C3 (empty detector set is fatal).  When the generation service resolves
and the listing selected by the label `trustyai/guardrails=true` is empty,
the call returns an error, hence no ConfigMap, for both values of
`useBuiltInDetectors`. -/
theorem empty_detector_set_fatal (tbl : Char → Bool) (r : GuardrailsOrchestratorReconciler)
    (orchestratorName ns : String) (owner : Object) (g : String)
    (hgen : GenerationResolves r ns g)
    (hdet : r.ListInferenceServices
      { Namespace := ns, LabelSelector := some [("trustyai/guardrails", "true")] } = .ok []) :
    ∀ b : Bool, GenerateOrchestratorConfigMap tbl r orchestratorName ns owner g b
      = .error "could not automatically find detector inference services: %!w(<nil>)" := by
  intro b
  obtain ⟨items, genHost, genPort, hlist, hres, hne⟩ := hgen
  have hp : genPort = "8080" := resolveGeneration_port g items _ hres hne
  subst hp
  simp [GenerateOrchestratorConfigMap, configYaml, hlist, hres, hne, hdet, Outcome.bind]

/-- Witness for C3: a directory holding the generation service only. -/
theorem empty_detector_set_fatal_witness :
    GenerateOrchestratorConfigMap noTable dirGenerationOnly "foo" "ns" testOwner "svc-A" true
      = .error "could not automatically find detector inference services: %!w(<nil>)"
    ∧ GenerateOrchestratorConfigMap noTable dirGenerationOnly "foo" "ns" testOwner "svc-A" false
      = .error "could not automatically find detector inference services: %!w(<nil>)" :=
  ⟨empty_detector_set_fatal noTable dirGenerationOnly "foo" "ns" testOwner "svc-A"
      ⟨[svcA], "host-A", "8080", rfl, by decide, by decide⟩ rfl true,
   empty_detector_set_fatal noTable dirGenerationOnly "foo" "ns" testOwner "svc-A"
      ⟨[svcA], "host-A", "8080", rfl, by decide, by decide⟩ rfl false⟩

/-- C4 (skip on missing runtime), at the failing input.  In `dirMissingRuntime`
the generation service resolves, two detectors are discovered and the
runtime reference of `d1` names no serving runtime.  The name of `d1` is
appended to `names` before the lookup, so the slices come out with
different lengths and the writing loop indexes `hosts` out of range: the
call panics for both values of `useBuiltInDetectors` instead of returning
the entry of `d2`. -/
theorem missing_runtime_panics :
    GenerationResolves dirMissingRuntime "ns" "svc-A"
    ∧ dirMissingRuntime.ListInferenceServices
        { Namespace := "ns", LabelSelector := some [("trustyai/guardrails", "true")] }
      = .ok [mkDetector "d1" "ns" (some "rt-missing") (some "https://d1.ns.svc:8441"),
             mkDetector "d2" "ns" (some "rt2") (some "https://d2.ns.svc:8442")]
    ∧ dirMissingRuntime.ListServingRuntimes { Namespace := "ns", LabelSelector := none }
      = .ok [mkRuntime "rt1" "ns" [8001], mkRuntime "rt2" "ns" [8002]]
    ∧ detectorLoop [mkRuntime "rt1" "ns" [8001], mkRuntime "rt2" "ns" [8002]]
        [mkDetector "d1" "ns" (some "rt-missing") (some "https://d1.ns.svc:8441"),
         mkDetector "d2" "ns" (some "rt2") (some "https://d2.ns.svc:8442")]
        { hosts := [], ports := [], names := [] }
      = .ok { hosts := ["d2.ns.svc"], ports := ["8002"], names := ["d1", "d2"] }
    ∧ ∀ b : Bool,
        GenerateOrchestratorConfigMap noTable dirMissingRuntime "foo" "ns" testOwner "svc-A" b
          = .panic "index out of range" :=
  ⟨⟨[mkDetector "d1" "ns" (some "rt-missing") (some "https://d1.ns.svc:8441"),
      mkDetector "d2" "ns" (some "rt2") (some "https://d2.ns.svc:8442"), svcA],
     "host-A", "8080", rfl, by decide, by decide⟩,
   rfl, rfl, by decide, fun b => by cases b <;> decide⟩

/-- C5 (detector without resolved URL), at the failing input.  In `dirNoURL`
the generation service resolves and the detector `d1` has a matching
serving runtime but no URL.  Its name and port are appended while no host
is, so the slices come out with different lengths and the writing loop
indexes `hosts` out of range: the call panics for both values of
`useBuiltInDetectors` instead of omitting `d1` and returning the entry of
`d2`. -/
theorem missing_url_panics :
    GenerationResolves dirNoURL "ns" "svc-A"
    ∧ dirNoURL.ListInferenceServices
        { Namespace := "ns", LabelSelector := some [("trustyai/guardrails", "true")] }
      = .ok [mkDetector "d1" "ns" (some "rt1") none,
             mkDetector "d2" "ns" (some "rt2") (some "https://d2.ns.svc:8442")]
    ∧ dirNoURL.ListServingRuntimes { Namespace := "ns", LabelSelector := none }
      = .ok [mkRuntime "rt1" "ns" [8001], mkRuntime "rt2" "ns" [8002]]
    ∧ detectorLoop [mkRuntime "rt1" "ns" [8001], mkRuntime "rt2" "ns" [8002]]
        [mkDetector "d1" "ns" (some "rt1") none,
         mkDetector "d2" "ns" (some "rt2") (some "https://d2.ns.svc:8442")]
        { hosts := [], ports := [], names := [] }
      = .ok { hosts := ["d2.ns.svc"], ports := ["8001", "8002"], names := ["d1", "d2"] }
    ∧ ∀ b : Bool,
        GenerateOrchestratorConfigMap noTable dirNoURL "foo" "ns" testOwner "svc-A" b
          = .panic "index out of range" :=
  ⟨⟨[mkDetector "d1" "ns" (some "rt1") none,
      mkDetector "d2" "ns" (some "rt2") (some "https://d2.ns.svc:8442"), svcA],
     "host-A", "8080", rfl, by decide, by decide⟩,
   rfl, rfl, by decide, fun b => by cases b <;> decide⟩

/-- C6 (detector block contents).  When every discovered detector `d_i`
resolves to a host `H_i` and a first container port `p_i` (see
`DetectorResolved`), the document of every successful run is the
generation block, the line `detectors:`, then exactly one entry per
discovered detector, keyed by its name, with the fields `type`,
`service.hostname` (the `%q` rendering of `H_i`), `service.port` (the
decimal rendering of `p_i`), `chunker_id` and `default_threshold` in that
order, then the built-in entry if requested.  The `%q` rendering of a host
made of printable characters other than `"` and `\` is the host between
double quotes. -/
theorem detector_block_contents (tbl : Char → Bool) (r : GuardrailsOrchestratorReconciler)
    (orchestratorName ns : String) (owner : Object) (g : String) (b : Bool)
    (ds : List InferenceService) (srs : List ServingRuntime) (es : List (String × Int))
    (cm : ConfigMap)
    (hdet : r.ListInferenceServices
      { Namespace := ns, LabelSelector := some [("trustyai/guardrails", "true")] } = .ok ds)
    (hrt : r.ListServingRuntimes { Namespace := ns, LabelSelector := none } = .ok srs)
    (hall : List.Forall₂ (fun d e => DetectorResolved srs d e.1 e.2) ds es)
    (hok : GenerateOrchestratorConfigMap tbl r orchestratorName ns owner g b = .ok cm) :
    (∃ genHost, cm.Data = [("config.yaml",
      generationBlock genHost "8080" ++ "detectors:\n"
        ++ concatAll (List.zipWith (fun d e =>
            "  " ++ d.Name ++ ":\n    type: text_contents\n    service:\n      hostname: "
              ++ Quote tbl e.1 ++ "\n      port: " ++ Itoa e.2
              ++ "\n    chunker_id: whole_doc_chunker\n    default_threshold: 0.5\n") ds es)
        ++ (if b then builtInEntry else ""))])
    ∧ ∀ e ∈ es,
        (∀ c ∈ e.1.toList, IsPrint tbl c = true ∧ c ≠ Char.ofNat 34 ∧ c ≠ Char.ofNat 92) →
        Quote tbl e.1 = "\"" ++ e.1 ++ "\"" := by
  refine ⟨?_, fun e _ he => Quote_plain tbl e.1 he⟩
  obtain ⟨doc, ref, hdoc, -, rfl⟩ := generate_ok tbl r orchestratorName ns owner g b cm hok
  obtain ⟨items, genHost, ds2, srs2, s, body, -, -, -, h3, -, h4, -, hl, hw, hd⟩ :=
    configYaml_ok tbl r ns g b doc hdoc
  rw [hdet] at h3
  cases h3
  rw [hrt] at h4
  cases h4
  rw [detectorLoop_resolved srs ds es _ hall] at hl
  simp only [Outcome.ok.injEq] at hl
  subst hl
  obtain ⟨-, -, hbody⟩ := writeDetectors_ok tbl _ _ _ _ _ _ hw
  simp only [List.nil_append, List.drop_zero] at hbody
  rw [zipWith3_map (detectorEntry tbl) (·.Name) (·.1) (fun e => Itoa e.2) ds es] at hbody
  simp only [detectorEntry_text] at hbody
  refine ⟨genHost, ?_⟩
  rw [hd, hbody]
  cases b <;> simp

/-- Witness for C6: in `dirTwo` both detectors resolve, `d1` to
`d1.ns.svc` and port 8001, `d2` to `d2.ns.svc` and port 8002. -/
theorem detector_block_contents_witness :
    GenerateOrchestratorConfigMap noTable dirTwo "foo" "ns" testOwner "svc-A" false = .ok cmTwo
    ∧ (∃ genHost, cmTwo.Data = [("config.yaml",
        generationBlock genHost "8080" ++ "detectors:\n"
          ++ concatAll (List.zipWith (fun d e =>
              "  " ++ d.Name ++ ":\n    type: text_contents\n    service:\n      hostname: "
                ++ Quote noTable e.1 ++ "\n      port: " ++ Itoa e.2
                ++ "\n    chunker_id: whole_doc_chunker\n    default_threshold: 0.5\n")
              [mkDetector "d1" "ns" (some "rt1") (some "https://d1.ns.svc:8441"),
               mkDetector "d2" "ns" (some "rt2") (some "https://d2.ns.svc:8442")]
              [("d1.ns.svc", (8001 : Int)), ("d2.ns.svc", (8002 : Int))])
          ++ (if false then builtInEntry else ""))])
    ∧ ∀ e ∈ [("d1.ns.svc", (8001 : Int)), ("d2.ns.svc", (8002 : Int))],
        (∀ c ∈ e.1.toList,
          IsPrint noTable c = true ∧ c ≠ Char.ofNat 34 ∧ c ≠ Char.ofNat 92) →
        Quote noTable e.1 = "\"" ++ e.1 ++ "\"" :=
  ⟨by decide,
    detector_block_contents noTable dirTwo "foo" "ns" testOwner "svc-A" false
      [mkDetector "d1" "ns" (some "rt1") (some "https://d1.ns.svc:8441"),
       mkDetector "d2" "ns" (some "rt2") (some "https://d2.ns.svc:8442")]
      [mkRuntime "rt1" "ns" [8001], mkRuntime "rt2" "ns" [8002]]
      [("d1.ns.svc", 8001), ("d2.ns.svc", 8002)] cmTwo rfl rfl
      (List.Forall₂.cons
        ⟨⟨"https", "8441", Or.inl (by decide), by decide⟩, by decide, by decide,
          "rt1", mkRuntime "rt1" "ns" [8001], ⟨"predictor", [⟨8001⟩]⟩, [], [],
          rfl, by decide, rfl, rfl⟩
        (List.Forall₂.cons
          ⟨⟨"https", "8442", Or.inl (by decide), by decide⟩, by decide, by decide,
            "rt2", mkRuntime "rt2" "ns" [8002], ⟨"predictor", [⟨8002⟩]⟩, [], [],
            rfl, by decide, rfl, rfl⟩
          List.Forall₂.nil))
      (by decide)⟩

/-- C8 (the built-in entry is appended independently of discovery).  The
call with `useBuiltInDetectors = true` succeeds exactly when the call with
`false` does, and it then returns the same ConfigMap with the fixed entry
`regex` appended to the document. -/
theorem builtin_entry_appended (tbl : Char → Bool) (r : GuardrailsOrchestratorReconciler)
    (orchestratorName ns : String) (owner : Object) (g : String) :
    ((∃ cm, GenerateOrchestratorConfigMap tbl r orchestratorName ns owner g true = .ok cm)
      ↔ ∃ cm, GenerateOrchestratorConfigMap tbl r orchestratorName ns owner g false = .ok cm)
    ∧ ∀ cm, GenerateOrchestratorConfigMap tbl r orchestratorName ns owner g false = .ok cm →
        ∃ doc, cm.Data = [("config.yaml", doc)]
          ∧ GenerateOrchestratorConfigMap tbl r orchestratorName ns owner g true
            = .ok { Name := cm.Name, Namespace := cm.Namespace,
                    OwnerReferences := cm.OwnerReferences,
                    Data := [("config.yaml", doc ++ "  regex:\n    type: text_contents\n    service:\n      hostname: 127.0.0.1\n      port: 8080\n    chunker_id: whole_doc_chunker\n    default_threshold: 0.5\n")] } := by
  have key : GenerateOrchestratorConfigMap tbl r orchestratorName ns owner g true
      = (GenerateOrchestratorConfigMap tbl r orchestratorName ns owner g false).bind fun cm =>
          .ok { Name := cm.Name, Namespace := cm.Namespace,
                OwnerReferences := cm.OwnerReferences,
                Data := cm.Data.map fun kv => (kv.1, kv.2 ++ builtInEntry) } := by
    unfold GenerateOrchestratorConfigMap
    rw [configYaml_builtIn]
    cases configYaml tbl r ns g false with
    | error e => rfl
    | panic e => rfl
    | ok doc =>
      simp only [Outcome.map, Outcome.ok_bind]
      cases r.SetControllerReference owner (orchestratorName ++ "-auto-config") ns with
      | error e => rfl
      | ok ref => rfl
  constructor
  · constructor
    · rintro ⟨cm, h⟩
      rw [key] at h
      obtain ⟨cm0, h0, -⟩ := Outcome.bind_eq_ok h
      exact ⟨cm0, h0⟩
    · rintro ⟨cm, h⟩
      rw [key, h]
      exact ⟨_, rfl⟩
  · intro cm h
    obtain ⟨doc, ref, -, -, rfl⟩ := generate_ok tbl r orchestratorName ns owner g false cm h
    refine ⟨doc, rfl, ?_⟩
    rw [key, h, ← builtInEntry_text]
    rfl

/-- C9, counterexample.  In `dirRegex` the only discovered detector is
itself named `regex`; the call with `useBuiltInDetectors = false` succeeds
and the detectors block of its document holds an entry named `regex`. -/
theorem builtin_off_regex_entry :
    GenerateOrchestratorConfigMap noTable dirRegex "foo" "ns" testOwner "svc-A" false
      = .ok { Name := "foo-auto-config", Namespace := "ns",
              OwnerReferences := [{ Kind := "GuardrailsOrchestrator", Name := "foo",
                                    Controller := true }],
              Data := [("config.yaml", "chat_generation:\n  service:\n    hostname: host-A\n    port: 8080\ndetectors:\n  regex:\n    type: text_contents\n    service:\n      hostname: \"regex.ns.svc\"\n      port: 8001\n    chunker_id: whole_doc_chunker\n    default_threshold: 0.5\n")] }
    ∧ ("detectors:\n  regex:\n").toList <:+: ("chat_generation:\n  service:\n    hostname: host-A\n    port: 8080\ndetectors:\n  regex:\n    type: text_contents\n    service:\n      hostname: \"regex.ns.svc\"\n      port: 8001\n    chunker_id: whole_doc_chunker\n    default_threshold: 0.5\n").toList := by
  constructor <;> decide

/-- C10 (artifact wrapping).  A successful run returns a ConfigMap named
`orchestratorName ++ "-auto-config"`, in the given namespace, whose data
map has exactly one key, `config.yaml`, bound to the serialized document. -/
theorem artifact_wrapping (tbl : Char → Bool) (r : GuardrailsOrchestratorReconciler)
    (orchestratorName ns : String) (owner : Object) (g : String) (b : Bool) (cm : ConfigMap)
    (hok : GenerateOrchestratorConfigMap tbl r orchestratorName ns owner g b = .ok cm) :
    cm.Name = orchestratorName ++ "-auto-config" ∧ cm.Namespace = ns
      ∧ ∃ doc, configYaml tbl r ns g b = .ok doc ∧ cm.Data = [("config.yaml", doc)] := by
  obtain ⟨doc, ref, hdoc, -, rfl⟩ := generate_ok tbl r orchestratorName ns owner g b cm hok
  exact ⟨rfl, rfl, doc, hdoc, rfl⟩

/-- Witness for C10: for the orchestrator `foo` the run on `dirTwo` succeeds
and the name is `foo-auto-config`. -/
theorem artifact_wrapping_witness :
    GenerateOrchestratorConfigMap noTable dirTwo "foo" "ns" testOwner "svc-A" true
      = .ok cmTwoBuiltIn
    ∧ cmTwoBuiltIn.Name = "foo-auto-config" ∧ cmTwoBuiltIn.Namespace = "ns"
    ∧ ∃ doc, configYaml noTable dirTwo "ns" "svc-A" true = .ok doc
        ∧ cmTwoBuiltIn.Data = [("config.yaml", doc)] :=
  ⟨by decide,
    artifact_wrapping noTable dirTwo "foo" "ns" testOwner "svc-A" true cmTwoBuiltIn
      (by decide)⟩

/-- C15 (empty runtime list is fatal).  When the generation service
resolves, at least one detector is discovered and the listing of serving
runtimes is empty, the call returns an error, hence no ConfigMap, for both
values of `useBuiltInDetectors`. -/
theorem empty_runtime_list_fatal (tbl : Char → Bool) (r : GuardrailsOrchestratorReconciler)
    (orchestratorName ns : String) (owner : Object) (g : String)
    (ds : List InferenceService)
    (hgen : GenerationResolves r ns g)
    (hdet : r.ListInferenceServices
      { Namespace := ns, LabelSelector := some [("trustyai/guardrails", "true")] } = .ok ds)
    (hne : ds ≠ [])
    (hrt : r.ListServingRuntimes { Namespace := ns, LabelSelector := none } = .ok []) :
    ∀ b : Bool, GenerateOrchestratorConfigMap tbl r orchestratorName ns owner g b
      = .error "could not automatically find detector serving runtimes: %!w(<nil>)" := by
  intro b
  obtain ⟨items, genHost, genPort, hlist, hres, hg⟩ := hgen
  have hp : genPort = "8080" := resolveGeneration_port g items _ hres hg
  subst hp
  have hl : ds.length ≠ 0 := fun e => hne (List.length_eq_zero.1 e)
  simp [GenerateOrchestratorConfigMap, configYaml, hlist, hres, hg, hdet, hl, hrt, Outcome.bind]

/-- Witness for C15: the directory with a detector and no serving runtime. -/
theorem empty_runtime_list_fatal_witness :
    GenerateOrchestratorConfigMap noTable dirNoRuntimes "foo" "ns" testOwner "svc-A" true
      = .error "could not automatically find detector serving runtimes: %!w(<nil>)"
    ∧ GenerateOrchestratorConfigMap noTable dirNoRuntimes "foo" "ns" testOwner "svc-A" false
      = .error "could not automatically find detector serving runtimes: %!w(<nil>)" :=
  ⟨empty_runtime_list_fatal noTable dirNoRuntimes "foo" "ns" testOwner "svc-A"
      [mkDetector "d1" "ns" (some "rt1") (some "https://d1.ns.svc:8441")]
      ⟨[mkDetector "d1" "ns" (some "rt1") (some "https://d1.ns.svc:8441"), svcA],
        "host-A", "8080", rfl, by decide, by decide⟩ rfl (by decide) rfl true,
   empty_runtime_list_fatal noTable dirNoRuntimes "foo" "ns" testOwner "svc-A"
      [mkDetector "d1" "ns" (some "rt1") (some "https://d1.ns.svc:8441")]
      ⟨[mkDetector "d1" "ns" (some "rt1") (some "https://d1.ns.svc:8441"), svcA],
        "host-A", "8080", rfl, by decide, by decide⟩ rfl (by decide) rfl false⟩

/-- The host extraction returns a host or panics. -/
theorem hostOfURL_ne_error (url m : String) : hostOfURL url ≠ .error m := by
  unfold hostOfURL
  cases (Split url "//")[1]? with
  | none => simp
  | some split =>
    dsimp only
    cases (Split split ":")[0]? <;> simp

/-- The dereference of the runtime returns it or panics. -/
theorem derefRuntime_ne_error (d : InferenceService) (m : String) :
    derefRuntime d ≠ .error m := by
  unfold derefRuntime
  cases d.Spec.Predictor.Model with
  | none => simp
  | some model =>
    dsimp only
    cases model.Runtime <;> simp

/-- A sequence returns an error only if one of its two steps does. -/
theorem Outcome.bind_eq_error {α β : Type} {x : Outcome α} {f : α → Outcome β} {m : String}
    (h : x.bind f = .error m) : x = .error m ∨ ∃ a, x = .ok a ∧ f a = .error m := by
  cases x with
  | ok a => exact Or.inr ⟨a, rfl, h⟩
  | error e =>
    simp only [Outcome.bind, Outcome.error.injEq] at h
    exact Or.inl (by rw [h])
  | panic e => simp [Outcome.bind] at h

/-- The search for the serving runtime returns a result or panics. -/
theorem matchingRuntime_ne_error (d : InferenceService) (m : String) :
    ∀ srs : List ServingRuntime, matchingRuntime d srs ≠ .error m
  | [] => by simp [matchingRuntime]
  | sr :: rest => by
    intro h
    rw [matchingRuntime] at h
    rcases Outcome.bind_eq_error h with h | ⟨runtime, -, h⟩
    · exact derefRuntime_ne_error d m h
    · by_cases hn : sr.Name = runtime
      · simp [hn] at h
      · rw [if_neg hn] at h
        exact matchingRuntime_ne_error d m rest h

/-- One iteration of the detector loop returns the slices or panics. -/
theorem detectorStep_ne_error (srs : List ServingRuntime) (acc : Slices)
    (d : InferenceService) (m : String) : detectorStep srs acc d ≠ .error m := by
  intro h
  unfold detectorStep at h
  rcases Outcome.bind_eq_error h with h | ⟨found, -, h⟩
  · exact matchingRuntime_ne_error d m srs h
  · cases found with
    | none =>
      rcases Outcome.bind_eq_error h with h | ⟨_, -, h⟩
      · exact derefRuntime_ne_error d m h
      · simp at h
    | some rt =>
      dsimp only at h
      cases hc : rt.Spec.Containers[0]? with
      | none => simp [hc] at h
      | some c =>
        simp only [hc] at h
        cases hp : c.Ports[0]? with
        | none => simp [hp] at h
        | some p =>
          simp only [hp] at h
          cases hu : d.Status.URL with
          | none => simp [hu] at h
          | some url =>
            simp only [hu] at h
            rcases Outcome.bind_eq_error h with h | ⟨_, -, h⟩
            · exact hostOfURL_ne_error url m h
            · simp at h

/-- The detector loop panics as soon as it holds a service on which the
iteration panics whatever the slices are. -/
theorem detectorLoop_panics (srs : List ServingRuntime) (d : InferenceService)
    (hstep : ∀ acc, ∃ msg, detectorStep srs acc d = .panic msg) :
    ∀ (ds : List InferenceService) (acc : Slices), d ∈ ds →
      ∃ msg, detectorLoop srs ds acc = .panic msg
  | [], _, h => by simp at h
  | x :: rest, acc, h => by
    rw [detectorLoop]
    cases hx : detectorStep srs acc x with
    | panic msg => exact ⟨msg, rfl⟩
    | error msg => exact absurd hx (detectorStep_ne_error srs acc x msg)
    | ok next =>
      rcases List.mem_cons.1 h with rfl | hin
      · obtain ⟨msg, hm⟩ := hstep acc
        rw [hm] at hx
        cases hx
      · exact detectorLoop_panics srs d hstep rest next hin

/-- C13 (an empty port list is an out-of-bounds failure).  When the
generation service resolves and a discovered detector refers to a serving
runtime that has no container or whose first container has no port, the
iteration of the detector loop on that detector panics on the index `[0]`,
so the loop of lines 76-102 panics before anything is written, and the call
panics for both values of `useBuiltInDetectors`: no document is produced. -/
theorem empty_port_list_panics (tbl : Char → Bool) (r : GuardrailsOrchestratorReconciler)
    (orchestratorName ns : String) (owner : Object) (g : String)
    (ds : List InferenceService) (srs : List ServingRuntime) (d : InferenceService)
    (runtime : String) (rt : ServingRuntime)
    (hgen : GenerationResolves r ns g)
    (hdet : r.ListInferenceServices
      { Namespace := ns, LabelSelector := some [("trustyai/guardrails", "true")] } = .ok ds)
    (hrt : r.ListServingRuntimes { Namespace := ns, LabelSelector := none } = .ok srs)
    (hd : d ∈ ds) (href : d.Spec.Predictor.Model = some { Runtime := some runtime })
    (hfind : srs.find? (fun sr => sr.Name = runtime) = some rt)
    (hempty : rt.Spec.Containers = []
      ∨ ∃ c cs, rt.Spec.Containers = c :: cs ∧ c.Ports = []) :
    (∀ acc, detectorStep srs acc d = .panic "index out of range [0]")
    ∧ ∃ msg, detectorLoop srs ds { hosts := [], ports := [], names := [] } = .panic msg
        ∧ ∀ b : Bool,
            GenerateOrchestratorConfigMap tbl r orchestratorName ns owner g b = .panic msg := by
  have hde : derefRuntime d = .ok runtime := by simp [derefRuntime, href]
  have hstep : ∀ acc, detectorStep srs acc d = .panic "index out of range [0]" := by
    intro acc
    rcases hempty with hc | ⟨c, cs, hc, hp⟩
    · simp [detectorStep, matchingRuntime_find d runtime hde srs, hfind, hc]
    · simp [detectorStep, matchingRuntime_find d runtime hde srs, hfind, hc, hp]
  refine ⟨hstep, ?_⟩
  obtain ⟨msg, hl⟩ := detectorLoop_panics srs d (fun acc => ⟨_, hstep acc⟩) ds
    { hosts := [], ports := [], names := [] } hd
  refine ⟨msg, hl, fun b => ?_⟩
  obtain ⟨items, genHost, genPort, hlist, hres, hg⟩ := hgen
  have hp : genPort = "8080" := resolveGeneration_port g items _ hres hg
  subst hp
  have hdl : ds.length ≠ 0 := fun e => by
    rw [List.length_eq_zero.1 e] at hd
    simp at hd
  have hsl : srs.length ≠ 0 := fun e => by
    rw [List.length_eq_zero.1 e] at hfind
    simp at hfind
  simp [GenerateOrchestratorConfigMap, configYaml, hlist, hres, hg, hdet, hdl, hrt, hsl, hl,
    Outcome.bind]

/-- Witness for C13: in `dirNoPorts` the runtime of `d1` has an empty port
list. -/
theorem empty_port_list_panics_witness :
    (∀ acc, detectorStep [mkRuntime "rt1" "ns" []] acc
        (mkDetector "d1" "ns" (some "rt1") (some "https://d1.ns.svc:8441"))
      = .panic "index out of range [0]")
    ∧ ∃ msg, detectorLoop [mkRuntime "rt1" "ns" []]
          [mkDetector "d1" "ns" (some "rt1") (some "https://d1.ns.svc:8441")]
          { hosts := [], ports := [], names := [] } = .panic msg
        ∧ ∀ b : Bool,
            GenerateOrchestratorConfigMap noTable dirNoPorts "foo" "ns" testOwner "svc-A" b
              = .panic msg :=
  empty_port_list_panics noTable dirNoPorts "foo" "ns" testOwner "svc-A"
    [mkDetector "d1" "ns" (some "rt1") (some "https://d1.ns.svc:8441")]
    [mkRuntime "rt1" "ns" []]
    (mkDetector "d1" "ns" (some "rt1") (some "https://d1.ns.svc:8441")) "rt1"
    (mkRuntime "rt1" "ns" [])
    ⟨[mkDetector "d1" "ns" (some "rt1") (some "https://d1.ns.svc:8441"), svcA],
      "host-A", "8080", rfl, by decide, by decide⟩
    rfl rfl (by decide) rfl (by decide) (Or.inr ⟨_, _, rfl, rfl⟩)

/-- A split always has a first piece. -/
theorem splitAux_length_pos (sep : List Char) :
    ∀ (s : List Char) (k : Nat) (cur : List Char), 1 ≤ (splitAux sep k s cur).length
  | [], k, cur => by simp [splitAux]
  | c :: t, k + 1, cur => by
    rw [splitAux]
    exact splitAux_length_pos sep t k cur
  | c :: t, 0, cur => by
    rw [splitAux]
    split
    · simp
    · exact splitAux_length_pos sep t 0 (c :: cur)

/-- A text that contains the separator splits into at least two pieces. -/
theorem splitAux_two_of_infix (sep : List Char) (hsep : sep ≠ []) :
    ∀ (s cur : List Char), sep <:+: s → 2 ≤ (splitAux sep 0 s cur).length
  | [], cur, h => by
    exact absurd (List.eq_nil_of_infix_nil h) hsep
  | c :: t, cur, h => by
    rw [splitAux]
    by_cases hp : sep.isPrefixOf (c :: t) = true
    · rw [if_pos hp]
      have := splitAux_length_pos sep t (sep.length - 1) []
      simp only [List.length_cons]
      omega
    · rw [if_neg hp]
      rcases List.infix_cons_iff.1 h with h1 | h2
      · exact absurd (List.isPrefixOf_iff_prefix.2 h1) hp
      · exact splitAux_two_of_infix sep hsep t (c :: cur) h2

/-- A URL that contains `//` has a host: both indexings are in range. -/
theorem hostOfURL_of_infix (url : String) (h : "//".toList <:+: url.toList) :
    ∃ host, hostOfURL url = .ok host := by
  have d1 : ("//" : String).data = ['/', '/'] := rfl
  have d2 : (":" : String).data = [':'] := rfl
  have l2 : 2 ≤ (Split url "//").length := by
    simp only [Split, d1, List.cons_ne_nil, if_false, List.length_map, reduceCtorEq]
    exact splitAux_two_of_infix ['/', '/'] (by simp) url.data [] h
  obtain ⟨split, hs⟩ : ∃ split, (Split url "//")[1]? = some split :=
    ⟨(Split url "//")[1], List.getElem?_eq_getElem (by omega)⟩
  have l1 : 1 ≤ (Split split ":").length := by
    simp only [Split, d2, List.cons_ne_nil, if_false, List.length_map, reduceCtorEq]
    exact splitAux_length_pos [':'] split.data 0 []
  obtain ⟨host, hh⟩ : ∃ host, (Split split ":")[0]? = some host :=
    ⟨(Split split ":")[0], List.getElem?_eq_getElem (by omega)⟩
  exact ⟨host, by simp [hostOfURL, hs, hh]⟩

/-- One iteration on a well-formed detector appends one element to each of
the three slices. -/
theorem detectorStep_wellFormed (srs : List ServingRuntime) (acc : Slices)
    (d : InferenceService) (h : DetectorWellFormed srs d) :
    ∃ host port, detectorStep srs acc d = .ok
      { hosts := acc.hosts ++ [host], ports := acc.ports ++ [port],
        names := acc.names ++ [d.Name] } := by
  obtain ⟨⟨url, hu, hinf⟩, runtime, rt, c, cs, p, ps, hm, hf, hc, hp⟩ := h
  have hd : derefRuntime d = .ok runtime := by simp [derefRuntime, hm]
  obtain ⟨host, hh⟩ := hostOfURL_of_infix url hinf
  exact ⟨host, Itoa p.ContainerPort,
    by simp [detectorStep, matchingRuntime_find d runtime hd srs, hf, hc, hp, hu, hh]⟩

/-- On well-formed detectors the loop appends one element per detector to
each of the three slices. -/
theorem detectorLoop_wellFormed (srs : List ServingRuntime) :
    ∀ (ds : List InferenceService) (acc : Slices),
      (∀ d ∈ ds, DetectorWellFormed srs d) →
      ∃ hosts ports, hosts.length = ds.length ∧ ports.length = ds.length ∧
        detectorLoop srs ds acc = .ok
          { hosts := acc.hosts ++ hosts, ports := acc.ports ++ ports,
            names := acc.names ++ ds.map (·.Name) }
  | [], acc, _ => ⟨[], [], rfl, rfl, by simp [detectorLoop]⟩
  | d :: ds, acc, h => by
    obtain ⟨host, port, hstep⟩ :=
      detectorStep_wellFormed srs acc d (h d (List.mem_cons_self _ _))
    obtain ⟨hosts, ports, l1, l2, hloop⟩ := detectorLoop_wellFormed srs ds
      { hosts := acc.hosts ++ [host], ports := acc.ports ++ [port],
        names := acc.names ++ [d.Name] }
      (fun x hx => h x (List.mem_cons_of_mem _ hx))
    refine ⟨host :: hosts, port :: ports, by simp [l1], by simp [l2], ?_⟩
    rw [detectorLoop, hstep, Outcome.ok_bind, hloop]
    simp

/-- The writing loop returns when `hosts` and `ports` reach as far as `names`. -/
theorem writeDetectors_total (tbl : Char → Bool) (hosts ports : List String) :
    ∀ (names : List String) (i : Nat) (buf : String),
      i + names.length ≤ hosts.length → i + names.length ≤ ports.length →
      ∃ doc, writeDetectors tbl hosts ports names i buf = .ok doc
  | [], _, buf, _, _ => ⟨buf, rfl⟩
  | name :: rest, i, buf, h1, h2 => by
    simp only [List.length_cons] at h1 h2
    have hh : hosts[i]? = some hosts[i] := List.getElem?_eq_getElem (by omega)
    have hp : ports[i]? = some ports[i] := List.getElem?_eq_getElem (by omega)
    obtain ⟨doc, hdoc⟩ := writeDetectors_total tbl hosts ports rest (i + 1)
      (buf ++ detectorEntry tbl name hosts[i] ports[i]) (by omega) (by omega)
    exact ⟨doc, by rw [writeDetectors, hh, hp]; exact hdoc⟩

/-- C14, counterexample.  Directories in which every URL contains `//` and
every discovered detector has a URL, a runtime reference and a serving
runtime of that name with a container that has a port, and on which the
call returns no document.  In `dirTwo`, asked for the generation service
`absent`, it returns an error.  In `dirGenerationOnly`, where no detector
is discovered, it returns an error.  In `dirOwnerFails` the owner
reference cannot be set and it returns that error.  In `dirSidecar` the
container that has the port is the second one, and the call panics on the
index `[0]` of the empty port list of the first. -/
theorem wellformed_without_document :
    (∀ d ∈ [mkDetector "d1" "ns" (some "rt1") (some "https://d1.ns.svc:8441"),
            mkDetector "d2" "ns" (some "rt2") (some "https://d2.ns.svc:8442"), svcA],
        ∃ url, d.Status.URL = some url ∧ "//".toList <:+: url.toList)
    ∧ (∀ d ∈ [mkDetector "d1" "ns" (some "rt1") (some "https://d1.ns.svc:8441"),
              mkDetector "d2" "ns" (some "rt2") (some "https://d2.ns.svc:8442")],
        DetectorWellFormed [mkRuntime "rt1" "ns" [8001], mkRuntime "rt2" "ns" [8002]] d)
    ∧ GenerateOrchestratorConfigMap noTable dirTwo "foo" "ns" testOwner "absent" true
        = .error ("could not find InferenceService with name \"absent\""
            ++ " in namespace \"ns\"")
    ∧ GenerateOrchestratorConfigMap noTable dirGenerationOnly "foo" "ns" testOwner "svc-A" true
        = .error "could not automatically find detector inference services: %!w(<nil>)"
    ∧ GenerateOrchestratorConfigMap noTable dirOwnerFails "foo" "ns" testOwner "svc-A" true
        = .error "failed to set owner reference: no kind is registered for the owner"
    ∧ dirSidecar.ListInferenceServices
          { Namespace := "ns", LabelSelector := some [("trustyai/guardrails", "true")] }
        = .ok [mkDetector "d1" "ns" (some "rt1") (some "https://d1.ns.svc:8441")]
    ∧ dirSidecar.ListServingRuntimes { Namespace := "ns", LabelSelector := none }
        = .ok [sidecarRuntime]
    ∧ (∃ c ∈ sidecarRuntime.Spec.Containers, c.Ports ≠ [])
    ∧ GenerateOrchestratorConfigMap noTable dirSidecar "foo" "ns" testOwner "svc-A" true
        = .panic "index out of range [0]" := by
  refine ⟨?_, ?_, by decide, by decide, by decide, rfl, rfl, by decide, by decide⟩
  · intro d hd
    simp only [List.mem_cons, List.mem_singleton, List.not_mem_nil, or_false] at hd
    rcases hd with rfl | rfl | rfl
    · exact ⟨_, rfl, by decide⟩
    · exact ⟨_, rfl, by decide⟩
    · exact ⟨_, rfl, by decide⟩
  · intro d hd
    simp only [List.mem_cons, List.mem_singleton, List.not_mem_nil, or_false] at hd
    rcases hd with rfl | rfl
    · exact ⟨⟨_, rfl, by decide⟩, "rt1", mkRuntime "rt1" "ns" [8001], _, _, _, _,
        rfl, by decide, rfl, rfl⟩
    · exact ⟨⟨_, rfl, by decide⟩, "rt2", mkRuntime "rt2" "ns" [8002], _, _, _, _,
        rfl, by decide, rfl, rfl⟩

/-- C14, amended (no out-of-range access on well-formed directories).  When
the generation service resolves, at least one detector is discovered, and
every discovered detector has a URL that contains `//`, a runtime
reference and a serving runtime of that name whose first container has at
least one port, the detector loop returns three slices of equal length,
the number of discovered detectors; no index is out of range, so the
document is produced, and the call returns it in a ConfigMap whenever the
owner reference is set. -/
theorem wellformed_no_out_of_range (tbl : Char → Bool)
    (r : GuardrailsOrchestratorReconciler) (orchestratorName ns : String) (owner : Object)
    (g : String) (b : Bool) (ds : List InferenceService) (srs : List ServingRuntime)
    (hgen : GenerationResolves r ns g)
    (hdet : r.ListInferenceServices
      { Namespace := ns, LabelSelector := some [("trustyai/guardrails", "true")] } = .ok ds)
    (hne : ds ≠ [])
    (hrt : r.ListServingRuntimes { Namespace := ns, LabelSelector := none } = .ok srs)
    (hall : ∀ d ∈ ds, DetectorWellFormed srs d) :
    ∃ s doc, detectorLoop srs ds { hosts := [], ports := [], names := [] } = .ok s
      ∧ s.names.length = ds.length ∧ s.hosts.length = ds.length
      ∧ s.ports.length = ds.length
      ∧ configYaml tbl r ns g b = .ok doc
      ∧ (∀ msg, GenerateOrchestratorConfigMap tbl r orchestratorName ns owner g b
          ≠ .panic msg)
      ∧ ∀ ref, r.SetControllerReference owner (orchestratorName ++ "-auto-config") ns
            = .ok ref →
          GenerateOrchestratorConfigMap tbl r orchestratorName ns owner g b
            = .ok { Name := orchestratorName ++ "-auto-config", Namespace := ns,
                    OwnerReferences := [ref], Data := [("config.yaml", doc)] } := by
  obtain ⟨hosts, ports, l1, l2, hloop⟩ := detectorLoop_wellFormed srs ds
    { hosts := [], ports := [], names := [] } hall
  simp only [List.nil_append] at hloop
  obtain ⟨items, genHost, genPort, hlist, hres, hg⟩ := hgen
  have hp : genPort = "8080" := resolveGeneration_port g items _ hres hg
  subst hp
  obtain ⟨body, hbody⟩ := writeDetectors_total tbl hosts ports (ds.map (·.Name)) 0
    (generationBlock genHost "8080" ++ "detectors:\n") (by simp [l1]) (by simp [l2])
  have hdl : ds.length ≠ 0 := fun e => hne (List.length_eq_zero.1 e)
  have hsl : srs.length ≠ 0 := by
    obtain ⟨d, ds2, rfl⟩ := List.exists_cons_of_ne_nil hne
    obtain ⟨-, runtime, rt, c, cs, p, ps, -, hf, -, -⟩ := hall d (List.mem_cons_self _ _)
    intro e
    rw [List.length_eq_zero.1 e] at hf
    simp at hf
  have hdoc : configYaml tbl r ns g b
      = .ok (if b then body ++ builtInEntry else body) := by
    simp [configYaml, hlist, hres, hg, hdet, hdl, hrt, hsl, hloop, hbody, Outcome.bind]
  refine ⟨_, _, hloop, by simp, l1, l2, hdoc, ?_, ?_⟩
  · intro msg
    unfold GenerateOrchestratorConfigMap
    rw [hdoc]
    dsimp only [Outcome.ok_bind]
    cases r.SetControllerReference owner (orchestratorName ++ "-auto-config") ns <;> simp
  · intro ref href
    unfold GenerateOrchestratorConfigMap
    rw [hdoc]
    dsimp only [Outcome.ok_bind]
    rw [href]

/-- Witness for C14 amended: `dirTwo` with the generation service `svc-A`. -/
theorem wellformed_no_out_of_range_witness :
    ∃ s doc, detectorLoop [mkRuntime "rt1" "ns" [8001], mkRuntime "rt2" "ns" [8002]]
        [mkDetector "d1" "ns" (some "rt1") (some "https://d1.ns.svc:8441"),
         mkDetector "d2" "ns" (some "rt2") (some "https://d2.ns.svc:8442")]
        { hosts := [], ports := [], names := [] } = .ok s
      ∧ s.names.length = 2 ∧ s.hosts.length = 2 ∧ s.ports.length = 2
      ∧ configYaml noTable dirTwo "ns" "svc-A" true = .ok doc
      ∧ (∀ msg, GenerateOrchestratorConfigMap noTable dirTwo "foo" "ns" testOwner "svc-A" true
          ≠ .panic msg)
      ∧ ∀ ref, dirTwo.SetControllerReference testOwner ("foo" ++ "-auto-config") "ns"
            = .ok ref →
          GenerateOrchestratorConfigMap noTable dirTwo "foo" "ns" testOwner "svc-A" true
            = .ok { Name := "foo" ++ "-auto-config", Namespace := "ns",
                    OwnerReferences := [ref], Data := [("config.yaml", doc)] } :=
  wellformed_no_out_of_range noTable dirTwo "foo" "ns" testOwner "svc-A" true
    [mkDetector "d1" "ns" (some "rt1") (some "https://d1.ns.svc:8441"),
     mkDetector "d2" "ns" (some "rt2") (some "https://d2.ns.svc:8442")]
    [mkRuntime "rt1" "ns" [8001], mkRuntime "rt2" "ns" [8002]]
    ⟨[mkDetector "d1" "ns" (some "rt1") (some "https://d1.ns.svc:8441"),
      mkDetector "d2" "ns" (some "rt2") (some "https://d2.ns.svc:8442"), svcA],
      "host-A", "8080", rfl, by decide, by decide⟩
    rfl (by decide) rfl
    (fun d hd => by
      simp only [List.mem_cons, List.mem_singleton, List.not_mem_nil, or_false] at hd
      rcases hd with rfl | rfl
      · exact ⟨⟨_, rfl, by decide⟩, "rt1", mkRuntime "rt1" "ns" [8001], _, _, _, _,
          rfl, by decide, rfl, rfl⟩
      · exact ⟨⟨_, rfl, by decide⟩, "rt2", mkRuntime "rt2" "ns" [8002], _, _, _, _,
          rfl, by decide, rfl, rfl⟩)


/-- The entry of a discovered detector is an entry with the `%q` rendering
of its host. -/
theorem detectorEntry_entryText (tbl : Char → Bool) (name host port : String) :
    detectorEntry tbl name host port = entryText name (Quote tbl host) port := by
  rw [detectorEntry_text]
  rfl

/-- The built-in entry is the entry `regex` at `127.0.0.1`, port `8080`. -/
theorem builtInEntry_entryText : builtInEntry = entryText "regex" "127.0.0.1" "8080" := by
  decide

/-- Concatenating two lists of texts. -/
theorem concatAll_append : ∀ (xs ys : List String),
    concatAll (xs ++ ys) = concatAll xs ++ concatAll ys
  | [], ys => by simp [concatAll]
  | x :: xs, ys => by simp [concatAll, concatAll_append xs ys, String.append_assoc]

/-- C16, counterexample.  In `dirRegex` the only discovered detector is
named `regex`, so the discovered names are pairwise distinct; the call with
`useBuiltInDetectors = true` succeeds and its detectors block holds two
entries named `regex`, the discovered one and the built-in one. -/
theorem duplicate_regex_key :
    dirRegex.ListInferenceServices
        { Namespace := "ns", LabelSelector := some [("trustyai/guardrails", "true")] }
      = .ok [mkDetector "regex" "ns" (some "rt1") (some "https://regex.ns.svc:8441")]
    ∧ GenerateOrchestratorConfigMap noTable dirRegex "foo" "ns" testOwner "svc-A" true
      = .ok { Name := "foo-auto-config", Namespace := "ns",
              OwnerReferences := [{ Kind := "GuardrailsOrchestrator", Name := "foo",
                                    Controller := true }],
              Data := [("config.yaml", "chat_generation:\n  service:\n    hostname: host-A\n    port: 8080\ndetectors:\n  regex:\n    type: text_contents\n    service:\n      hostname: \"regex.ns.svc\"\n      port: 8001\n    chunker_id: whole_doc_chunker\n    default_threshold: 0.5\n  regex:\n    type: text_contents\n    service:\n      hostname: 127.0.0.1\n      port: 8080\n    chunker_id: whole_doc_chunker\n    default_threshold: 0.5\n")] }
    ∧ "chat_generation:\n  service:\n    hostname: host-A\n    port: 8080\ndetectors:\n  regex:\n    type: text_contents\n    service:\n      hostname: \"regex.ns.svc\"\n      port: 8001\n    chunker_id: whole_doc_chunker\n    default_threshold: 0.5\n  regex:\n    type: text_contents\n    service:\n      hostname: 127.0.0.1\n      port: 8080\n    chunker_id: whole_doc_chunker\n    default_threshold: 0.5\n"
      = generationBlock "host-A" "8080" ++ "detectors:\n"
          ++ concatAll [entryText "regex" "\"regex.ns.svc\"" "8001",
                        entryText "regex" "127.0.0.1" "8080"]
    ∧ ¬ (["regex", "regex"] : List String).Nodup := by
  refine ⟨rfl, by decide, by decide, by decide⟩

/-- A name is absent from the map exactly when it is not among the keys. -/
theorem lookupCounter_eq_none (name : String) :
    ∀ m : List (String × Counter), lookupCounter name m = none ↔ name ∉ m.map (·.1)
  | [] => by simp [lookupCounter]
  | (key, c) :: rest => by
    by_cases hk : key = name
    · simp [lookupCounter, hk]
    · have ih := lookupCounter_eq_none name rest
      have hk2 : ¬ name = key := fun e => hk e.symm
      simp [lookupCounter, hk, hk2, ih]

/-- A counter read from the map is one of its entries, under that name. -/
theorem lookupCounter_mem (name : String) (c : Counter) :
    ∀ m : List (String × Counter), lookupCounter name m = some c → (name, c) ∈ m
  | [] => by simp [lookupCounter]
  | (key, c0) :: rest => by
    intro h
    by_cases hk : key = name
    · simp only [lookupCounter, hk, if_true, Option.some.injEq] at h
      simp [hk, h]
    · simp only [lookupCounter, hk, if_false] at h
      exact List.mem_cons_of_mem _ (lookupCounter_mem name c rest h)

/-- Adding entries at the end keeps what is read under a present name. -/
theorem lookupCounter_append (name : String) (c : Counter) (extra : List (String × Counter)) :
    ∀ m : List (String × Counter), lookupCounter name m = some c →
      lookupCounter name (m ++ extra) = some c
  | [] => by simp [lookupCounter]
  | (key, c0) :: rest => by
    intro h
    by_cases hk : key = name
    · simpa [lookupCounter, hk] using h
    · simp only [lookupCounter, hk, if_false] at h
      simpa [lookupCounter, hk] using lookupCounter_append name c extra rest h

/-- A name stored at the end of a map that lacks it is read back. -/
theorem lookupCounter_append_new (name : String) (c : Counter) :
    ∀ m : List (String × Counter), lookupCounter name m = none →
      lookupCounter name (m ++ [(name, c)]) = some c
  | [] => by simp [lookupCounter]
  | (key, c0) :: rest => by
    intro h
    by_cases hk : key = name
    · simp [lookupCounter, hk] at h
    · simp only [lookupCounter, hk, if_false] at h
      simpa [lookupCounter, hk] using lookupCounter_append_new name c rest h

/-- One call on a state built by calls, for a name the registry accepts: it
returns the counter then stored under the name, keeps the invariant and
what was stored before, and adds at most that name to the keys. -/
theorem GetOrCreateCounter_step (validName : String → Bool) (st : MetricsState)
    (task_name help : String) (hinv : MetricsInvariant st)
    (hvalid : validName ("trustyai_" ++ task_name) = true) :
    ∃ c st2, GetOrCreateCounter validName st task_name help = .ok (c, st2)
      ∧ MetricsInvariant st2
      ∧ lookupCounter ("trustyai_" ++ task_name) st2.metricCounters = some c
      ∧ (∀ k c0, lookupCounter k st.metricCounters = some c0 →
          lookupCounter k st2.metricCounters = some c0)
      ∧ (∀ k, k ∈ st2.metricCounters.map (·.1) ↔
          k ∈ st.metricCounters.map (·.1) ∨ k = "trustyai_" ++ task_name) := by
  obtain ⟨i1, i2, i3, i4⟩ := hinv
  cases hl : lookupCounter ("trustyai_" ++ task_name) st.metricCounters with
  | some c =>
    refine ⟨c, st, by simp [GetOrCreateCounter, hl], ⟨i1, i2, i3, i4⟩, hl,
      fun _ _ h => h, fun k => ?_⟩
    constructor
    · exact Or.inl
    · rintro (h | rfl)
      · exact h
      · have := lookupCounter_mem _ c _ hl
        exact List.mem_map.2 ⟨_, this, rfl⟩
  | none =>
    have hnot := (lookupCounter_eq_none _ _).1 hl
    have hany : st.registry.any (fun r => r.Name = "trustyai_" ++ task_name) = false := by
      rw [Bool.eq_false_iff]
      intro h
      rw [List.any_eq_true] at h
      obtain ⟨x, hx, hxn⟩ := h
      rw [i3] at hx
      obtain ⟨e, he, rfl⟩ := List.mem_map.1 hx
      apply hnot
      have := i2 e he
      simp only [decide_eq_true_eq] at hxn
      exact List.mem_map.2 ⟨e, he, by rw [← this, hxn]⟩
    refine ⟨{ id := st.created, Name := "trustyai_" ++ task_name, Help := help },
      { metricCounters := st.metricCounters
          ++ [("trustyai_" ++ task_name,
               { id := st.created, Name := "trustyai_" ++ task_name, Help := help })],
        registry := st.registry
          ++ [{ id := st.created, Name := "trustyai_" ++ task_name, Help := help }],
        created := st.created + 1 }, ?_, ⟨?_, ?_, ?_, ?_⟩, ?_, ?_, ?_⟩
    · simp [GetOrCreateCounter, hl, MustRegister, hvalid, hany]
    · simp only [List.map_append, List.map_cons, List.map_nil]
      rw [List.nodup_append]
      refine ⟨i1, by simp, ?_⟩
      intro x hx hx2
      simp only [List.mem_singleton] at hx2
      subst hx2
      exact hnot hx
    · intro e he
      rcases List.mem_append.1 he with h | h
      · exact i2 e h
      · simp only [List.mem_singleton] at h
        subst h
        rfl
    · simp [i3]
    · simp [i4]
    · exact lookupCounter_append_new _ _ _ hl
    · intro k c0 h
      exact lookupCounter_append k c0 _ _ h
    · intro k
      simp

/-- A sequence of calls on a state built by calls, for names the registry
accepts: every call returns, each returned counter is the one stored under
its name at the end, and the keys at the end are the earlier keys and the
requested names. -/
theorem callSequence_run (validName : String → Bool) :
    ∀ (calls : List (String × String)) (st : MetricsState), MetricsInvariant st →
      (∀ call ∈ calls, validName ("trustyai_" ++ call.1) = true) →
      ∃ rs st2, callSequence validName calls st = .ok (rs, st2)
        ∧ MetricsInvariant st2
        ∧ List.Forall₂
            (fun call c => lookupCounter ("trustyai_" ++ call.1) st2.metricCounters = some c)
            calls rs
        ∧ (∀ k c0, lookupCounter k st.metricCounters = some c0 →
            lookupCounter k st2.metricCounters = some c0)
        ∧ (∀ k, k ∈ st2.metricCounters.map (·.1) ↔
            k ∈ st.metricCounters.map (·.1) ∨ ∃ call ∈ calls, k = "trustyai_" ++ call.1)
  | [], st, hinv, _ =>
    ⟨[], st, rfl, hinv, List.Forall₂.nil, fun _ _ h => h, fun k => by simp⟩
  | call :: rest, st, hinv, hvalid => by
    obtain ⟨c, st1, h1, inv1, l1, s1, k1⟩ := GetOrCreateCounter_step validName st call.1 call.2
      hinv (hvalid call (List.mem_cons_self _ _))
    obtain ⟨rs, st2, h2, inv2, f2, s2, k2⟩ := callSequence_run validName rest st1 inv1
      (fun x hx => hvalid x (List.mem_cons_of_mem _ hx))
    refine ⟨c :: rs, st2, ?_, inv2, List.Forall₂.cons (s2 _ _ l1) f2,
      fun k c0 h => s2 k c0 (s1 k c0 h), fun k => ?_⟩
    · simp [callSequence, h1, h2]
    · rw [k2 k, k1 k]
      constructor
      · rintro ((h | h) | ⟨x, hx, h⟩)
        · exact Or.inl h
        · exact Or.inr ⟨call, List.mem_cons_self _ _, h⟩
        · exact Or.inr ⟨x, List.mem_cons_of_mem _ hx, h⟩
      · rintro (h | ⟨x, hx, h⟩)
        · exact Or.inl (Or.inl h)
        · rcases List.mem_cons.1 hx with rfl | hx
          · exact Or.inl (Or.inr h)
          · exact Or.inr ⟨x, hx, h⟩

/-- Prefixing with `trustyai_` maps distinct task names to distinct names. -/
theorem trustyai_name_injective :
    Function.Injective (fun task_name : String => "trustyai_" ++ task_name) := by
  intro a b h
  have hd := congrArg String.data h
  simp only [String.data_append] at hd
  exact String.ext (List.append_cancel_left hd)

/-- C11, amended (counter registry get-or-create).  For every sequence of
calls from the empty map and registry, with task names whose `trustyai_`
names the registry accepts: every call returns a counter named
`"trustyai_" ++ task_name` that is registered; two calls with the same task
name return the same counter, whatever help texts are passed; the
registered names are pairwise distinct, so each counter is registered once;
and the numbers of registered counters and of created counters both equal
the number of distinct task names requested. -/
theorem counter_get_or_create (validName : String → Bool) (calls : List (String × String))
    (hvalid : ∀ call ∈ calls, validName ("trustyai_" ++ call.1) = true) :
    ∃ rs st, callSequence validName calls emptyMetrics = .ok (rs, st)
      ∧ List.Forall₂ (fun call c => c.Name = "trustyai_" ++ call.1 ∧ c ∈ st.registry)
          calls rs
      ∧ (∀ x ∈ calls.zip rs, ∀ y ∈ calls.zip rs, x.1.1 = y.1.1 → x.2 = y.2)
      ∧ (st.registry.map (·.Name)).Nodup
      ∧ st.registry.length = (calls.map (·.1)).toFinset.card
      ∧ st.created = (calls.map (·.1)).toFinset.card := by
  have hinv0 : MetricsInvariant emptyMetrics := by
    simp [MetricsInvariant, emptyMetrics]
  obtain ⟨rs, st, hrun, ⟨i1, i2, i3, i4⟩, hf, -, hk⟩ :=
    callSequence_run validName calls emptyMetrics hinv0 hvalid
  have hnames : st.registry.map (·.Name) = st.metricCounters.map (·.1) := by
    rw [i3, List.map_map]
    apply List.map_congr_left
    intro e he
    exact i2 e he
  have hcard : (st.metricCounters.map (·.1)).length = (calls.map (·.1)).toFinset.card := by
    have himg : (st.metricCounters.map (·.1)).toFinset
        = (calls.map (·.1)).toFinset.image (fun task_name : String => "trustyai_" ++ task_name) := by
      ext k
      simp only [List.mem_toFinset, hk k, emptyMetrics, List.map_nil, List.not_mem_nil,
        false_or, List.mem_map, Finset.mem_image]
      constructor
      · rintro ⟨call, hc, rfl⟩
        exact ⟨call.1, ⟨call, hc, rfl⟩, rfl⟩
      · rintro ⟨t, ⟨call, hc, rfl⟩, rfl⟩
        exact ⟨call, hc, rfl⟩
    rw [← List.toFinset_card_of_nodup i1, himg,
      Finset.card_image_of_injective _ trustyai_name_injective]
  have hzip : ∀ (a : String × String) (b : Counter), (a, b) ∈ calls.zip rs →
      lookupCounter ("trustyai_" ++ a.1) st.metricCounters = some b :=
    fun _ _ h => (List.forall₂_iff_zip.1 hf).2 h
  refine ⟨rs, st, hrun, ?_, ?_, ?_, ?_, ?_⟩
  · refine List.Forall₂.imp ?_ hf
    intro call c hl
    have hm := lookupCounter_mem _ c _ hl
    refine ⟨i2 _ hm, ?_⟩
    rw [i3]
    exact List.mem_map.2 ⟨_, hm, rfl⟩
  · intro x hx y hy hxy
    have hx2 := hzip x.1 x.2 hx
    have hy2 := hzip y.1 y.2 hy
    rw [hxy, hy2] at hx2
    exact (Option.some.inj hx2).symm
  · rw [hnames]
    exact i1
  · rw [← hcard, i3]
    simp
  · rw [← hcard, i4]
    simp

/-- Witness for C11 amended: the task `a` requested twice, with different help
texts, around the task `b`. -/
theorem counter_get_or_create_witness :
    ∃ rs st, callSequence (fun _ => true) [("a", "h1"), ("b", "h2"), ("a", "h3")] emptyMetrics
        = .ok (rs, st)
      ∧ List.Forall₂ (fun call c => c.Name = "trustyai_" ++ call.1 ∧ c ∈ st.registry)
          [("a", "h1"), ("b", "h2"), ("a", "h3")] rs
      ∧ (∀ x ∈ [("a", "h1"), ("b", "h2"), ("a", "h3")].zip rs,
          ∀ y ∈ [("a", "h1"), ("b", "h2"), ("a", "h3")].zip rs, x.1.1 = y.1.1 → x.2 = y.2)
      ∧ (st.registry.map (·.Name)).Nodup
      ∧ st.registry.length
          = ([("a", "h1"), ("b", "h2"), ("a", "h3")].map (·.1)).toFinset.card
      ∧ st.created = ([("a", "h1"), ("b", "h2"), ("a", "h3")].map (·.1)).toFinset.card :=
  counter_get_or_create (fun _ => true) [("a", "h1"), ("b", "h2"), ("a", "h3")]
    (fun _ _ => rfl)

/-- A decimal digit character is not a line break. -/
theorem digitChar_ne_newline (n : Nat) : Nat.digitChar (n % 10) ≠ '\n' := by
  have h : n % 10 < 10 := Nat.mod_lt _ (by decide)
  generalize n % 10 = j at h
  interval_cases j <;> decide

/-- The digits of a number hold no line break. -/
theorem toDigitsCore_no_newline :
    ∀ (fuel n : Nat) (ds : List Char), '\n' ∉ ds → '\n' ∉ Nat.toDigitsCore 10 fuel n ds
  | 0, _, ds, h => by simpa [Nat.toDigitsCore] using h
  | fuel + 1, n, ds, h => by
    have hd : '\n' ∉ Nat.digitChar (n % 10) :: ds := by
      intro hm
      rcases List.mem_cons.1 hm with e | e
      · exact digitChar_ne_newline _ e.symm
      · exact h e
    rw [Nat.toDigitsCore]
    split
    · exact hd
    · exact toDigitsCore_no_newline fuel _ _ hd

/-- The decimal rendering of an integer holds no line break. -/
theorem Itoa_no_newline (i : Int) : '\n' ∉ (Itoa i).toList := by
  cases i with
  | ofNat m =>
    show '\n' ∉ (Nat.toDigits 10 m).asString.toList
    exact toDigitsCore_no_newline _ _ _ (by simp)
  | negSucc m =>
    show '\n' ∉ ("-" ++ (Nat.toDigits 10 (m + 1)).asString).toList
    simp only [String.toList, String.data_append, List.mem_append, not_or]
    exact ⟨by decide, toDigitsCore_no_newline _ _ _ (by simp)⟩

/-- A hexadecimal digit is not a line break. -/
theorem lowerhex_ne_newline (n : Nat) : lowerhex (n % 16) ≠ '\n' := by
  have h : n % 16 < 16 := Nat.mod_lt _ (by decide)
  generalize n % 16 = j at h
  interval_cases j <;> decide

/-- Hexadecimal digits hold no line break. -/
theorem hexDigits_no_newline (r : Nat) : ∀ k : Nat, '\n' ∉ hexDigits r k
  | 0 => by simp [hexDigits]
  | k + 1 => by
    intro hm
    rw [hexDigits] at hm
    rcases List.mem_cons.1 hm with e | e
    · exact lowerhex_ne_newline _ e.symm
    · exact hexDigits_no_newline r k e

/-- What `strconv.Quote` writes for one character holds no line break. -/
theorem appendEscapedRune_no_newline (tbl : Char → Bool) (r : Char) :
    '\n' ∉ appendEscapedRune tbl r := by
  have hx := hexDigits_no_newline r.toNat
  have hp : IsPrint tbl '\n' = false := rfl
  intro hm
  unfold appendEscapedRune at hm
  by_cases h1 : r = Char.ofNat 34 ∨ r = Char.ofNat 92
  · rw [if_pos h1] at hm
    rcases List.mem_cons.1 hm with e | e
    · revert e; decide
    · rw [List.mem_singleton] at e
      subst e
      revert h1; decide
  · rw [if_neg h1] at hm
    by_cases h2 : IsPrint tbl r = true
    · rw [if_pos h2, List.mem_singleton] at hm
      subst hm
      rw [hp] at h2
      exact absurd h2 (by decide)
    · rw [if_neg h2] at hm
      have two : ∀ a b : Char, a ≠ '\n' → b ≠ '\n' → '\n' ∉ [a, b] := by
        intro a b ha hb hmem
        rcases List.mem_cons.1 hmem with e | e
        · exact ha e.symm
        · exact hb (List.mem_singleton.1 e).symm
      have esc : ∀ (a : Char) (k : Nat), a ≠ '\n' →
          '\n' ∉ Char.ofNat 92 :: a :: hexDigits r.toNat k := by
        intro a k ha hmem
        rcases List.mem_cons.1 hmem with e | e
        · revert e; decide
        · rcases List.mem_cons.1 e with e | e
          · exact ha e.symm
          · exact hx k e
      split_ifs at hm
      · exact two _ _ (by decide) (by decide) hm
      · exact two _ _ (by decide) (by decide) hm
      · exact two _ _ (by decide) (by decide) hm
      · exact two _ _ (by decide) (by decide) hm
      · exact two _ _ (by decide) (by decide) hm
      · exact two _ _ (by decide) (by decide) hm
      · exact two _ _ (by decide) (by decide) hm
      · exact esc _ _ (by decide) hm
      · exact esc _ _ (by decide) hm
      · exact esc _ _ (by decide) hm

/-- The `%q` rendering of a text holds no line break. -/
theorem Quote_no_newline (tbl : Char → Bool) (s : String) : '\n' ∉ (Quote tbl s).toList := by
  intro hm
  change '\n' ∈ Char.ofNat 34
    :: ((s.data.map (appendEscapedRune tbl)).flatten ++ [Char.ofNat 34]) at hm
  rcases List.mem_cons.1 hm with e | e
  · revert e; decide
  · rcases List.mem_append.1 e with e | e
    · obtain ⟨l, hl, hc⟩ := List.mem_flatten.1 e
      obtain ⟨c, -, rfl⟩ := List.mem_map.1 hl
      exact appendEscapedRune_no_newline tbl c hc
    · simp only [List.mem_singleton] at e
      revert e; decide

/-- Splitting at line breaks: a line free of line breaks, then the rest. -/
theorem splitAux_line (l rest cur : List Char) (h : '\n' ∉ l) :
    splitAux ['\n'] 0 (l ++ '\n' :: rest) cur
      = (cur.reverse ++ l) :: splitAux ['\n'] 0 rest [] := by
  rw [splitAux_free _ _ _ _ _ h]
  simp [splitAux, List.isPrefixOf]

/-- The lines of a text of lines free of line breaks, and the empty rest
after the last line break. -/
theorem splitAux_joinLines :
    ∀ lines : List (List Char), (∀ l ∈ lines, '\n' ∉ l) →
      splitAux ['\n'] 0 (joinLines lines) [] = lines ++ [[]]
  | [], _ => by simp [joinLines, splitAux]
  | l :: rest, h => by
    have ih := splitAux_joinLines rest (fun x hx => h x (List.mem_cons_of_mem _ hx))
    have e : joinLines (l :: rest) = l ++ '\n' :: joinLines rest := by
      simp [joinLines]
    rw [e, splitAux_line l _ [] (h l (List.mem_cons_self _ _)), ih]
    simp

/-- Joining the lines of two texts. -/
theorem joinLines_append (a b : List (List Char)) :
    joinLines (a ++ b) = joinLines a ++ joinLines b := by
  simp [joinLines]

/-- The text of an entry is its seven lines. -/
theorem entryText_lines (name hostText port : String) :
    (entryText name hostText port).toList
      = joinLines (entryLines name.toList hostText.toList port.toList) := by
  simp [entryText, entryLines, joinLines, String.toList, String.data_append]

/-- The text of a list of entries is the lines of the entries. -/
theorem concatAll_lines :
    ∀ es : List (String × String × String),
      (concatAll (es.map fun e => entryText e.1 e.2.1 e.2.2)).toList
        = joinLines (es.flatMap fun e => entryLines e.1.toList e.2.1.toList e.2.2.toList)
  | [] => by simp [concatAll, joinLines]
  | e :: es => by
    have ih := concatAll_lines es
    simp only [String.toList] at ih ⊢
    simp only [List.map_cons, concatAll, String.data_append, List.flatMap_cons,
      joinLines_append, ih]
    have he := entryText_lines e.1 e.2.1 e.2.2
    simp only [String.toList] at he
    rw [he]

/-- Among the lines of an entry only the first opens an entry, under the
name of the entry. -/
theorem entryKey_entryLines (name hostText port : List Char) (h : name.head? ≠ some ' ') :
    (entryLines name hostText port).filterMap entryKey = [String.mk name] := by
  have h1 : entryKey ([' ', ' '] ++ name ++ [':']) = some (String.mk name) := by
    have hh : (name ++ [':']).head? ≠ some ' ' := by
      cases name with
      | nil => decide
      | cons c t => simpa using h
    simp [entryKey, hh, h]
  simp [entryLines, List.filterMap_cons, h1, entryKey, h]

/-- The lines of an entry hold no line break when its name, host text and
port hold none. -/
theorem entryLines_no_newline (name hostText port : List Char) (hn : '\n' ∉ name)
    (hh : '\n' ∉ hostText) (hp : '\n' ∉ port) :
    ∀ l ∈ entryLines name hostText port, '\n' ∉ l := by
  intro l hl
  simp only [entryLines, List.mem_cons, List.mem_singleton, List.not_mem_nil, or_false] at hl
  rcases hl with rfl | rfl | rfl | rfl | rfl | rfl | rfl
  · simp only [List.mem_append, List.mem_cons, List.mem_singleton, List.not_mem_nil,
      not_or]
    exact ⟨⟨⟨by decide, by decide, not_false⟩, hn⟩, by decide, not_false⟩
  · decide
  · decide
  · simp only [List.mem_append, not_or]
    exact ⟨by decide, hh⟩
  · simp only [List.mem_append, not_or]
    exact ⟨by decide, hp⟩
  · decide
  · decide

/-- The entry-opening lines among the lines of a list of entries are their
first lines, under their names. -/
theorem entryKey_entries :
    ∀ es : List (String × String × String), (∀ e ∈ es, e.1.toList.head? ≠ some ' ') →
      (es.flatMap fun e => entryLines e.1.toList e.2.1.toList e.2.2.toList).filterMap entryKey
        = es.map (·.1)
  | [], _ => rfl
  | e :: es, h => by
    have ih := entryKey_entries es (fun x hx => h x (List.mem_cons_of_mem _ hx))
    rw [List.flatMap_cons, List.filterMap_append,
      entryKey_entryLines _ _ _ (h e (List.mem_cons_self _ _)), ih]
    rfl

/-- The keys read off a document that is a generation block, the line
`detectors:` and a list of entries are the names of the entries, when the
generation host, the names, the host texts and the ports hold no line
break and no name starts with a space. -/
theorem detectorKeys_render (H : String) (es : List (String × String × String))
    (hH : '\n' ∉ H.toList)
    (hes : ∀ e ∈ es, PlainName e.1 ∧ '\n' ∉ e.2.1.toList ∧ '\n' ∉ e.2.2.toList) :
    detectorKeys (generationBlock H "8080" ++ "detectors:\n"
        ++ concatAll (es.map fun e => entryText e.1 e.2.1 e.2.2))
      = es.map (·.1) := by
  have hg : (generationBlock H "8080").toList
      = joinLines ["chat_generation:".toList, "  service:".toList,
          "    hostname: ".toList ++ H.toList, "    port: 8080".toList] := by
    simp [generationBlock, joinLines, String.toList, String.data_append]
  have hd : ("detectors:\n" : String).toList = joinLines ["detectors:".toList] := by
    decide
  have hdoc : (generationBlock H "8080" ++ "detectors:\n"
        ++ concatAll (es.map fun e => entryText e.1 e.2.1 e.2.2)).toList
      = joinLines (["chat_generation:".toList, "  service:".toList,
          "    hostname: ".toList ++ H.toList, "    port: 8080".toList]
          ++ (["detectors:".toList]
            ++ es.flatMap fun e => entryLines e.1.toList e.2.1.toList e.2.2.toList)) := by
    have hc := concatAll_lines es
    show (generationBlock H "8080" ++ "detectors:\n"
        ++ concatAll (es.map fun e => entryText e.1 e.2.1 e.2.2)).data = _
    rw [String.data_append, String.data_append]
    show (generationBlock H "8080").toList ++ ("detectors:\n" : String).toList
        ++ (concatAll (es.map fun e => entryText e.1 e.2.1 e.2.2)).toList = _
    rw [hg, hd, hc, joinLines_append, joinLines_append, List.append_assoc]
  have hfree : ∀ l ∈ ["chat_generation:".toList, "  service:".toList,
          "    hostname: ".toList ++ H.toList, "    port: 8080".toList]
          ++ (["detectors:".toList]
            ++ es.flatMap fun e => entryLines e.1.toList e.2.1.toList e.2.2.toList),
        '\n' ∉ l := by
    intro l hl
    rcases List.mem_append.1 hl with h | h
    · simp only [List.mem_cons, List.mem_singleton, List.not_mem_nil, or_false] at h
      rcases h with rfl | rfl | rfl | rfl
      · decide
      · decide
      · simp only [List.mem_append, not_or]
        exact ⟨by decide, hH⟩
      · decide
    · rcases List.mem_append.1 h with h | h
      · rw [List.mem_singleton] at h
        subst h
        decide
      · obtain ⟨e, he, hl2⟩ := List.mem_flatMap.1 h
        obtain ⟨⟨hn, -⟩, hh, hp⟩ := hes e he
        exact entryLines_no_newline _ _ _ hn hh hp l hl2
  have h3 : ("    hostname: ".toList ++ H.toList) ≠ "detectors:".toList := by
    intro e
    have := congrArg List.head? e
    revert this
    simp [String.toList]
  unfold detectorKeys documentLines
  rw [hdoc, splitAux_joinLines _ hfree]
  have hdrop : List.dropWhile (fun line => decide (line ≠ "detectors:".toList))
      ((["chat_generation:".toList, "  service:".toList,
          "    hostname: ".toList ++ H.toList, "    port: 8080".toList]
          ++ (["detectors:".toList]
            ++ es.flatMap fun e => entryLines e.1.toList e.2.1.toList e.2.2.toList)) ++ [[]])
      = "detectors:".toList
          :: ((es.flatMap fun e => entryLines e.1.toList e.2.1.toList e.2.2.toList) ++ [[]]) := by
    have p1 : decide ("chat_generation:".toList ≠ "detectors:".toList) = true := by decide
    have p2 : decide ("  service:".toList ≠ "detectors:".toList) = true := by decide
    have p3 : decide (("    hostname: ".toList ++ H.toList) ≠ "detectors:".toList) = true :=
      decide_eq_true h3
    have p4 : decide ("    port: 8080".toList ≠ "detectors:".toList) = true := by decide
    have p5 : decide ("detectors:".toList ≠ "detectors:".toList) = false := by decide
    simp only [List.cons_append, List.nil_append, List.dropWhile_cons, p1, p2, p3, p4, p5,
      if_true, if_false, Bool.false_eq_true]
  rw [hdrop, List.drop_one, List.tail_cons, List.filterMap_append,
    entryKey_entries es (fun e he => (hes e he).1.2)]
  simp [entryKey]

/-- A search that finds a serving runtime has dereferenced the runtime
reference. -/
theorem matchingRuntime_some (d : InferenceService) (rt : ServingRuntime) :
    ∀ srs : List ServingRuntime, matchingRuntime d srs = .ok (some rt) →
      ∃ runtime, derefRuntime d = .ok runtime
  | [], h => by simp [matchingRuntime] at h
  | sr :: rest, h => by
    rw [matchingRuntime] at h
    obtain ⟨runtime, hr, -⟩ := Outcome.bind_eq_ok h
    exact ⟨runtime, hr⟩

/-- An iteration of the detector loop that appends a host appends the host
of the detector's own URL, the port of its own serving runtime and its
name. -/
theorem detectorStep_complete (srs : List ServingRuntime) (acc next : Slices)
    (d : InferenceService) (h : detectorStep srs acc d = .ok next)
    (hlen : next.hosts.length = acc.hosts.length + 1) :
    ∃ host port, detectorHost d = some host ∧ detectorPort srs d = some port ∧
      next = { hosts := acc.hosts ++ [host], ports := acc.ports ++ [port],
               names := acc.names ++ [d.Name] } := by
  unfold detectorStep at h
  obtain ⟨found, hf, h⟩ := Outcome.bind_eq_ok h
  cases found with
  | none =>
    obtain ⟨_, -, h⟩ := Outcome.bind_eq_ok h
    simp only [Outcome.ok.injEq] at h
    rw [← h] at hlen
    simp at hlen
  | some rt =>
    obtain ⟨runtime, hde⟩ := matchingRuntime_some d rt srs hf
    rw [matchingRuntime_find d runtime hde srs] at hf
    simp only [Outcome.ok.injEq] at hf
    have hmodel : ∃ model, d.Spec.Predictor.Model = some model ∧ model.Runtime = some runtime := by
      unfold derefRuntime at hde
      cases hm : d.Spec.Predictor.Model with
      | none => simp [hm] at hde
      | some model =>
        simp only [hm] at hde
        cases hr : model.Runtime with
        | none => simp [hr] at hde
        | some x =>
          simp only [hr, Outcome.ok.injEq] at hde
          exact ⟨model, rfl, by rw [hr, hde]⟩
    obtain ⟨model, hm1, hm2⟩ := hmodel
    dsimp only at h
    cases hcs : rt.Spec.Containers with
    | nil => simp [hcs] at h
    | cons c cs =>
      simp only [hcs, List.getElem?_cons_zero] at h
      cases hps : c.Ports with
      | nil => simp [hps] at h
      | cons p ps =>
        simp only [hps, List.getElem?_cons_zero] at h
        have hport : detectorPort srs d = some (Itoa p.ContainerPort) := by
          simp [detectorPort, hm1, hm2, hf, hcs, hps]
        cases hu : d.Status.URL with
        | none =>
          simp only [hu, Outcome.ok.injEq] at h
          rw [← h] at hlen
          simp at hlen
        | some url =>
          simp only [hu] at h
          obtain ⟨host, hh, h⟩ := Outcome.bind_eq_ok h
          simp only [Outcome.ok.injEq] at h
          exact ⟨host, _, by simp [detectorHost, hu, hh], hport, h.symm⟩

/-- A detector loop that appends one host per detector has appended, for
each detector in order, the host of its own URL, the port of its own
serving runtime and its name. -/
theorem detectorLoop_complete (srs : List ServingRuntime) :
    ∀ (ds : List InferenceService) (acc s : Slices),
      detectorLoop srs ds acc = .ok s →
      s.hosts.length = acc.hosts.length + ds.length →
      (∀ d ∈ ds, (detectorHost d).isSome = true ∧ (detectorPort srs d).isSome = true)
      ∧ s = { hosts := acc.hosts ++ ds.map fun d => (detectorHost d).getD "",
              ports := acc.ports ++ ds.map fun d => (detectorPort srs d).getD "",
              names := acc.names ++ ds.map (·.Name) }
  | [], acc, s, h, _ => by
    simp only [detectorLoop, Outcome.ok.injEq] at h
    subst h
    simp
  | d :: ds, acc, s, h, hlen => by
    rw [detectorLoop] at h
    obtain ⟨next, hn, h⟩ := Outcome.bind_eq_ok h
    obtain ⟨s1, -⟩ := detectorStep_hosts srs acc next d hn
    obtain ⟨l1, -⟩ := detectorLoop_hosts srs ds next s h
    simp only [List.length_cons] at hlen
    have e1 : next.hosts.length = acc.hosts.length + 1 := by omega
    have e2 : s.hosts.length = next.hosts.length + ds.length := by omega
    obtain ⟨host, port, hh, hp, hnext⟩ := detectorStep_complete srs acc next d hn e1
    obtain ⟨hall, hs⟩ := detectorLoop_complete srs ds next s h e2
    constructor
    · intro x hx
      rcases List.mem_cons.1 hx with rfl | hx
      · simp [hh, hp]
      · exact hall x hx
    · rw [hs, hnext]
      simp [hh, hp]

/-- The document of a successful run, in full: the generation block for
the host the generation loop found, the line `detectors:`, the entry of
each discovered detector in the order of the listing with its own host and
port, then the built-in entry if requested. -/
theorem document_exact (tbl : Char → Bool) (r : GuardrailsOrchestratorReconciler)
    (orchestratorName ns : String) (owner : Object) (g : String) (b : Bool)
    (ds : List InferenceService) (cm : ConfigMap)
    (hdet : r.ListInferenceServices
      { Namespace := ns, LabelSelector := some [("trustyai/guardrails", "true")] } = .ok ds)
    (hok : GenerateOrchestratorConfigMap tbl r orchestratorName ns owner g b = .ok cm) :
    ∃ items srs genHost,
      r.ListInferenceServices { Namespace := ns, LabelSelector := none } = .ok items
      ∧ r.ListServingRuntimes { Namespace := ns, LabelSelector := none } = .ok srs
      ∧ resolveGeneration g items = .ok (genHost, "8080")
      ∧ (∀ d ∈ ds, (detectorHost d).isSome = true ∧ (detectorPort srs d).isSome = true)
      ∧ cm.Data = [("config.yaml",
          generationBlock genHost "8080" ++ "detectors:\n"
            ++ concatAll (ds.map (expectedEntry tbl srs))
            ++ (if b then builtInEntry else ""))] := by
  obtain ⟨doc, ref, hdoc, -, rfl⟩ := generate_ok tbl r orchestratorName ns owner g b cm hok
  obtain ⟨items, genHost, ds2, srs, s, body, h1, h2, -, h3, -, h4, -, hl, hw, hd⟩ :=
    configYaml_ok tbl r ns g b doc hdoc
  rw [hdet] at h3
  cases h3
  have hn := detectorLoop_names srs ds _ s hl
  obtain ⟨l1, -⟩ := detectorLoop_hosts srs ds _ s hl
  obtain ⟨w1, -, hbody⟩ := writeDetectors_ok tbl _ _ _ _ _ _ hw
  simp only [List.drop_zero, hn, List.nil_append, List.length_map] at w1
  simp only [List.length_nil, Nat.zero_add] at l1
  obtain ⟨hall, hs⟩ := detectorLoop_complete srs ds _ s hl (by simp; omega)
  simp only [List.nil_append] at hs
  subst hs
  simp only [List.drop_zero] at hbody
  have hz : List.zipWith3 (detectorEntry tbl) (ds.map (·.Name))
      (ds.map fun d => (detectorHost d).getD "")
      (ds.map fun d => (detectorPort srs d).getD "")
      = ds.map (expectedEntry tbl srs) := by
    clear hall hbody hw hl hn l1 w1 hdet hok hdoc hd
    induction ds with
    | nil => simp [List.zipWith3]
    | cons d ds ih => simp [List.zipWith3, expectedEntry, ih]
  rw [hz] at hbody
  refine ⟨items, srs, genHost, h1, h4, h2, hall, ?_⟩
  rw [hd, hbody]
  cases b <;> simp

/-- The port of a detector is the decimal rendering of an integer. -/
theorem detectorPort_some (srs : List ServingRuntime) (d : InferenceService) (port : String)
    (h : detectorPort srs d = some port) : ∃ n : Int, port = Itoa n := by
  unfold detectorPort at h
  repeat' split at h
  all_goals first
    | exact ⟨_, (Option.some.inj h).symm⟩
    | cases h

/-- The port written for a detector holds no line break. -/
theorem detectorPort_no_newline (srs : List ServingRuntime) (d : InferenceService) :
    '\n' ∉ ((detectorPort srs d).getD "").toList := by
  cases h : detectorPort srs d with
  | none => decide
  | some port =>
    obtain ⟨n, rfl⟩ := detectorPort_some srs d port h
    exact Itoa_no_newline n

/-- The keys read off the document of a run are the names of the
discovered detectors in the order of the listing, then `regex` when the
built-in entry is written, provided the generation host and the names hold
no line break and no name starts with a space. -/
theorem detectorKeys_document (tbl : Char → Bool) (srs : List ServingRuntime)
    (genHost : String) (ds : List InferenceService) (b : Bool)
    (hH : '\n' ∉ genHost.toList) (hnames : ∀ d ∈ ds, PlainName d.Name) :
    detectorKeys (generationBlock genHost "8080" ++ "detectors:\n"
        ++ concatAll (ds.map (expectedEntry tbl srs))
        ++ (if b then builtInEntry else ""))
      = ds.map (·.Name) ++ (if b then ["regex"] else []) := by
  have hdoc : generationBlock genHost "8080" ++ "detectors:\n"
        ++ concatAll (ds.map (expectedEntry tbl srs))
        ++ (if b then builtInEntry else "")
      = generationBlock genHost "8080" ++ "detectors:\n"
        ++ concatAll ((ds.map (fun d => (d.Name, Quote tbl ((detectorHost d).getD ""),
              (detectorPort srs d).getD ""))
            ++ (if b then [("regex", "127.0.0.1", "8080")] else [])).map
              fun e => entryText e.1 e.2.1 e.2.2) := by
    have hm : ds.map (expectedEntry tbl srs)
        = (ds.map (fun d => (d.Name, Quote tbl ((detectorHost d).getD ""),
            (detectorPort srs d).getD ""))).map fun e => entryText e.1 e.2.1 e.2.2 := by
      rw [List.map_map]
      apply List.map_congr_left
      intro d _
      exact detectorEntry_entryText tbl _ _ _
    rw [List.map_append, concatAll_append, ← hm]
    cases b
    · simp [concatAll]
    · simp [concatAll, builtInEntry_entryText, String.append_assoc]
  rw [hdoc, detectorKeys_render genHost _ hH]
  · rw [List.map_append, List.map_map]
    cases b <;> rfl
  · intro e he
    rcases List.mem_append.1 he with h | h
    · obtain ⟨d, hd, rfl⟩ := List.mem_map.1 h
      exact ⟨hnames d hd, Quote_no_newline tbl _, detectorPort_no_newline srs d⟩
    · cases b
      · simp at h
      · simp only [if_true, List.mem_singleton] at h
        subst h
        exact ⟨⟨by decide, by decide⟩, by decide, by decide⟩

/-- C7 (detector ordering).  When the detector listing returns `ds`, the
document of every successful run is, in full, the generation block for the
host the generation loop found, the line `detectors:`, then the entry of
each element of `ds` in the order of `ds`, each under its name with the
host of its own URL and the port of its own serving runtime, followed only
by the built-in entry when `useBuiltInDetectors` is true.  Read off the
text, the entry names are therefore the names of `ds` in order, then
`regex` when requested (for names and a generation host free of line
breaks, names not starting with a space).  A run succeeds only when every
detector has a valid runtime reference and a URL, so this covers the runs
of the claim. -/
theorem detector_ordering (tbl : Char → Bool) (r : GuardrailsOrchestratorReconciler)
    (orchestratorName ns : String) (owner : Object) (g : String) (b : Bool)
    (ds : List InferenceService) (cm : ConfigMap)
    (hdet : r.ListInferenceServices
      { Namespace := ns, LabelSelector := some [("trustyai/guardrails", "true")] } = .ok ds)
    (hok : GenerateOrchestratorConfigMap tbl r orchestratorName ns owner g b = .ok cm) :
    ∃ items srs genHost doc,
      r.ListInferenceServices { Namespace := ns, LabelSelector := none } = .ok items
      ∧ r.ListServingRuntimes { Namespace := ns, LabelSelector := none } = .ok srs
      ∧ resolveGeneration g items = .ok (genHost, "8080")
      ∧ (∀ d ∈ ds, (detectorHost d).isSome = true ∧ (detectorPort srs d).isSome = true)
      ∧ cm.Data = [("config.yaml", doc)]
      ∧ doc = generationBlock genHost "8080" ++ "detectors:\n"
          ++ concatAll (ds.map (expectedEntry tbl srs))
          ++ (if b then builtInEntry else "")
      ∧ ('\n' ∉ genHost.toList → (∀ d ∈ ds, PlainName d.Name) →
          detectorKeys doc = ds.map (·.Name) ++ (if b then ["regex"] else [])) := by
  obtain ⟨items, srs, genHost, h1, h2, h3, h4, h5⟩ :=
    document_exact tbl r orchestratorName ns owner g b ds cm hdet hok
  exact ⟨items, srs, genHost, _, h1, h2, h3, h4, h5, rfl,
    fun hH hn => detectorKeys_document tbl srs genHost ds b hH hn⟩

/-- Witness for C7: in `dirTwo` the listing returns `d1` then `d2`; the run
with the built-in entry succeeds and the keys read off its document are
`d1`, `d2`, `regex`. -/
theorem detector_ordering_witness :
    GenerateOrchestratorConfigMap noTable dirTwo "foo" "ns" testOwner "svc-A" true
      = .ok cmTwoBuiltIn
    ∧ cmTwoBuiltIn.Data.map (fun kv => detectorKeys kv.2) = [["d1", "d2", "regex"]]
    ∧ ∃ items srs genHost doc,
      dirTwo.ListInferenceServices { Namespace := "ns", LabelSelector := none } = .ok items
      ∧ dirTwo.ListServingRuntimes { Namespace := "ns", LabelSelector := none } = .ok srs
      ∧ resolveGeneration "svc-A" items = .ok (genHost, "8080")
      ∧ (∀ d ∈ [mkDetector "d1" "ns" (some "rt1") (some "https://d1.ns.svc:8441"),
                mkDetector "d2" "ns" (some "rt2") (some "https://d2.ns.svc:8442")],
          (detectorHost d).isSome = true ∧ (detectorPort srs d).isSome = true)
      ∧ cmTwoBuiltIn.Data = [("config.yaml", doc)]
      ∧ doc = generationBlock genHost "8080" ++ "detectors:\n"
          ++ concatAll
            ([mkDetector "d1" "ns" (some "rt1") (some "https://d1.ns.svc:8441"),
              mkDetector "d2" "ns" (some "rt2") (some "https://d2.ns.svc:8442")].map
              (expectedEntry noTable srs))
          ++ (if true then builtInEntry else "")
      ∧ ('\n' ∉ genHost.toList →
          (∀ d ∈ [mkDetector "d1" "ns" (some "rt1") (some "https://d1.ns.svc:8441"),
                  mkDetector "d2" "ns" (some "rt2") (some "https://d2.ns.svc:8442")],
            PlainName d.Name) →
          detectorKeys doc
            = [mkDetector "d1" "ns" (some "rt1") (some "https://d1.ns.svc:8441"),
               mkDetector "d2" "ns" (some "rt2") (some "https://d2.ns.svc:8442")].map (·.Name)
              ++ (if true then ["regex"] else [])) :=
  ⟨by decide, by decide,
    detector_ordering noTable dirTwo "foo" "ns" testOwner "svc-A" true
      [mkDetector "d1" "ns" (some "rt1") (some "https://d1.ns.svc:8441"),
       mkDetector "d2" "ns" (some "rt2") (some "https://d2.ns.svc:8442")] cmTwoBuiltIn rfl
      (by decide)⟩

/-- C9, amended (built-in toggle off).  When the detector listing returns
`ds`, the document of every successful run with
`useBuiltInDetectors = false` is, in full, the generation block, the line
`detectors:` and the entry of each element of `ds` under its name, with
its own host and port, and nothing after them: no built-in entry is
appended.  Read off the text (names and generation host free of line
breaks, names not starting with a space), the entry names are exactly the
names of `ds`, so an entry is named `regex` exactly when a discovered
detector is. -/
theorem builtin_off_entries (tbl : Char → Bool) (r : GuardrailsOrchestratorReconciler)
    (orchestratorName ns : String) (owner : Object) (g : String)
    (ds : List InferenceService) (cm : ConfigMap)
    (hdet : r.ListInferenceServices
      { Namespace := ns, LabelSelector := some [("trustyai/guardrails", "true")] } = .ok ds)
    (hok : GenerateOrchestratorConfigMap tbl r orchestratorName ns owner g false = .ok cm) :
    ∃ items srs genHost doc,
      r.ListInferenceServices { Namespace := ns, LabelSelector := none } = .ok items
      ∧ r.ListServingRuntimes { Namespace := ns, LabelSelector := none } = .ok srs
      ∧ resolveGeneration g items = .ok (genHost, "8080")
      ∧ cm.Data = [("config.yaml", doc)]
      ∧ doc = generationBlock genHost "8080" ++ "detectors:\n"
          ++ concatAll (ds.map (expectedEntry tbl srs))
      ∧ ('\n' ∉ genHost.toList → (∀ d ∈ ds, PlainName d.Name) →
          detectorKeys doc = ds.map (·.Name)
          ∧ ("regex" ∈ detectorKeys doc ↔ ∃ d ∈ ds, d.Name = "regex")) := by
  obtain ⟨items, srs, genHost, h1, h2, h3, -, h5⟩ :=
    document_exact tbl r orchestratorName ns owner g false ds cm hdet hok
  have e : generationBlock genHost "8080" ++ "detectors:\n"
        ++ concatAll (ds.map (expectedEntry tbl srs)) ++ (if false then builtInEntry else "")
      = generationBlock genHost "8080" ++ "detectors:\n"
        ++ concatAll (ds.map (expectedEntry tbl srs)) := by
    simp
  rw [e] at h5
  refine ⟨items, srs, genHost, _, h1, h2, h3, h5, rfl, fun hH hn => ?_⟩
  have hk := detectorKeys_document tbl srs genHost ds false hH hn
  rw [e] at hk
  simp only [Bool.false_eq_true, if_false, List.append_nil] at hk
  refine ⟨hk, ?_⟩
  rw [hk, List.mem_map]

/-- Witness for C9 amended: in `dirTwo` no detector is named `regex`; the
run without the built-in entry succeeds and the keys read off its document
are `d1` and `d2`. -/
theorem builtin_off_entries_witness :
    GenerateOrchestratorConfigMap noTable dirTwo "foo" "ns" testOwner "svc-A" false = .ok cmTwo
    ∧ cmTwo.Data.map (fun kv => detectorKeys kv.2) = [["d1", "d2"]]
    ∧ ∃ items srs genHost doc,
      dirTwo.ListInferenceServices { Namespace := "ns", LabelSelector := none } = .ok items
      ∧ dirTwo.ListServingRuntimes { Namespace := "ns", LabelSelector := none } = .ok srs
      ∧ resolveGeneration "svc-A" items = .ok (genHost, "8080")
      ∧ cmTwo.Data = [("config.yaml", doc)]
      ∧ doc = generationBlock genHost "8080" ++ "detectors:\n"
          ++ concatAll
            ([mkDetector "d1" "ns" (some "rt1") (some "https://d1.ns.svc:8441"),
              mkDetector "d2" "ns" (some "rt2") (some "https://d2.ns.svc:8442")].map
              (expectedEntry noTable srs))
      ∧ ('\n' ∉ genHost.toList →
          (∀ d ∈ [mkDetector "d1" "ns" (some "rt1") (some "https://d1.ns.svc:8441"),
                  mkDetector "d2" "ns" (some "rt2") (some "https://d2.ns.svc:8442")],
            PlainName d.Name) →
          detectorKeys doc
            = [mkDetector "d1" "ns" (some "rt1") (some "https://d1.ns.svc:8441"),
               mkDetector "d2" "ns" (some "rt2") (some "https://d2.ns.svc:8442")].map (·.Name)
          ∧ ("regex" ∈ detectorKeys doc ↔
              ∃ d ∈ [mkDetector "d1" "ns" (some "rt1") (some "https://d1.ns.svc:8441"),
                     mkDetector "d2" "ns" (some "rt2") (some "https://d2.ns.svc:8442")],
                d.Name = "regex")) :=
  ⟨by decide, by decide,
    builtin_off_entries noTable dirTwo "foo" "ns" testOwner "svc-A"
      [mkDetector "d1" "ns" (some "rt1") (some "https://d1.ns.svc:8441"),
       mkDetector "d2" "ns" (some "rt2") (some "https://d2.ns.svc:8442")] cmTwo rfl
      (by decide)⟩

/-- C16, amended (distinct detector keys).  When the discovered detectors
have pairwise distinct names and, if the built-in entry is requested, none
of them is named `regex`, the document of every successful run is, in
full, the generation block, the line `detectors:`, the entry of each
discovered detector and the built-in entry if requested; and the entry
names read off that text (names and generation host free of line breaks,
names not starting with a space) are the discovered names followed by
`regex` when requested, pairwise distinct. -/
theorem distinct_detector_keys (tbl : Char → Bool) (r : GuardrailsOrchestratorReconciler)
    (orchestratorName ns : String) (owner : Object) (g : String) (b : Bool)
    (ds : List InferenceService) (cm : ConfigMap)
    (hdet : r.ListInferenceServices
      { Namespace := ns, LabelSelector := some [("trustyai/guardrails", "true")] } = .ok ds)
    (hnodup : (ds.map (·.Name)).Nodup)
    (hreg : b = true → ∀ d ∈ ds, d.Name ≠ "regex")
    (hok : GenerateOrchestratorConfigMap tbl r orchestratorName ns owner g b = .ok cm) :
    ∃ items srs genHost doc,
      r.ListInferenceServices { Namespace := ns, LabelSelector := none } = .ok items
      ∧ r.ListServingRuntimes { Namespace := ns, LabelSelector := none } = .ok srs
      ∧ resolveGeneration g items = .ok (genHost, "8080")
      ∧ cm.Data = [("config.yaml", doc)]
      ∧ doc = generationBlock genHost "8080" ++ "detectors:\n"
          ++ concatAll (ds.map (expectedEntry tbl srs))
          ++ (if b then builtInEntry else "")
      ∧ ('\n' ∉ genHost.toList → (∀ d ∈ ds, PlainName d.Name) →
          detectorKeys doc = ds.map (·.Name) ++ (if b then ["regex"] else [])
          ∧ (detectorKeys doc).Nodup) := by
  obtain ⟨items, srs, genHost, h1, h2, h3, -, h5⟩ :=
    document_exact tbl r orchestratorName ns owner g b ds cm hdet hok
  refine ⟨items, srs, genHost, _, h1, h2, h3, h5, rfl, fun hH hn => ?_⟩
  have hk := detectorKeys_document tbl srs genHost ds b hH hn
  refine ⟨hk, ?_⟩
  rw [hk]
  cases b
  · simpa using hnodup
  · have hr := hreg rfl
    simp only [if_true]
    rw [List.nodup_append]
    refine ⟨hnodup, by simp, ?_⟩
    intro x hx hx2
    simp only [List.mem_singleton] at hx2
    subst hx2
    obtain ⟨d, hd, hdn⟩ := List.mem_map.1 hx
    exact hr d hd hdn

/-- Witness for C16 amended: `dirTwo` with the built-in entry; the keys read
off the document are `d1`, `d2` and `regex`. -/
theorem distinct_detector_keys_witness :
    GenerateOrchestratorConfigMap noTable dirTwo "foo" "ns" testOwner "svc-A" true
      = .ok cmTwoBuiltIn
    ∧ cmTwoBuiltIn.Data.map (fun kv => detectorKeys kv.2) = [["d1", "d2", "regex"]]
    ∧ ∃ items srs genHost doc,
      dirTwo.ListInferenceServices { Namespace := "ns", LabelSelector := none } = .ok items
      ∧ dirTwo.ListServingRuntimes { Namespace := "ns", LabelSelector := none } = .ok srs
      ∧ resolveGeneration "svc-A" items = .ok (genHost, "8080")
      ∧ cmTwoBuiltIn.Data = [("config.yaml", doc)]
      ∧ doc = generationBlock genHost "8080" ++ "detectors:\n"
          ++ concatAll
            ([mkDetector "d1" "ns" (some "rt1") (some "https://d1.ns.svc:8441"),
              mkDetector "d2" "ns" (some "rt2") (some "https://d2.ns.svc:8442")].map
              (expectedEntry noTable srs))
          ++ (if true then builtInEntry else "")
      ∧ ('\n' ∉ genHost.toList →
          (∀ d ∈ [mkDetector "d1" "ns" (some "rt1") (some "https://d1.ns.svc:8441"),
                  mkDetector "d2" "ns" (some "rt2") (some "https://d2.ns.svc:8442")],
            PlainName d.Name) →
          detectorKeys doc
            = [mkDetector "d1" "ns" (some "rt1") (some "https://d1.ns.svc:8441"),
               mkDetector "d2" "ns" (some "rt2") (some "https://d2.ns.svc:8442")].map (·.Name)
              ++ (if true then ["regex"] else [])
          ∧ (detectorKeys doc).Nodup) :=
  ⟨by decide, by decide,
    distinct_detector_keys noTable dirTwo "foo" "ns" testOwner "svc-A" true
      [mkDetector "d1" "ns" (some "rt1") (some "https://d1.ns.svc:8441"),
       mkDetector "d2" "ns" (some "rt2") (some "https://d2.ns.svc:8442")] cmTwoBuiltIn rfl
      (by decide) (fun _ => by decide) (by decide)⟩

/-- C11, counterexample.  Under Prometheus' legacy check of metric names the
task name `my task` gives the name `trustyai_my task`, which the registry
rejects: the first call with that task name panics in `MustRegister`, so it
returns no counter and registers none.  The same happens with any check
that rejects the name, as the last conjunct shows for a registry that
accepts no name. -/
theorem rejected_name_panics :
    legacyValidName "trustyai_my task" = false
    ∧ GetOrCreateCounter legacyValidName emptyMetrics "my task" "help"
      = .panic "descriptor is invalid"
    ∧ callSequence legacyValidName [("my task", "help")] emptyMetrics
      = .panic "descriptor is invalid"
    ∧ callSequence (fun _ => false) [("a", "h")] emptyMetrics
      = .panic "descriptor is invalid" := by
  decide

end Gorch
